import Mathlib

/-! # Watix back end: credit ledger, pathway prompts and request processing

A shallow embedding of the metering pipeline of the Watix back end
(`src/back-end`).  JavaScript numbers that hold counts and credits are
integers (`Int`); numbers that hold means are rationals (exact arithmetic).
A Mongoose document is a Lean structure, a document method is a function
from the document (and its arguments) to the returned value and the saved
document.
-/

namespace Watix

/-! ## `models/userCreditModel.js` -/

/-- The `UserCredit` document (the owner id is the key under which the
document is stored and is not part of the record). -/
structure UserCredit where
  totalCredits : Int
  usedCredits : Int
  lastResetDate : Nat
  deriving DecidableEq, Repr

/-- `UserCredit.create({ userId, totalCredits: 100, usedCredits: 0 })`: the
document every controller creates when the caller has none; `lastResetDate`
defaults to `Date.now`. -/
def UserCredit.create (now : Nat) : UserCredit :=
  { totalCredits := 100, usedCredits := 0, lastResetDate := now }

/-- `getAvailableCredits`: `totalCredits - usedCredits`. -/
def UserCredit.getAvailableCredits (c : UserCredit) : Int :=
  c.totalCredits - c.usedCredits

/-- `useCredits(amount)`: the returned boolean and the document as saved. -/
def UserCredit.useCredits (c : UserCredit) (amount : Int) : Bool × UserCredit :=
  if c.usedCredits + amount > c.totalCredits then
    (false, c)
  else
    (true, { c with usedCredits := c.usedCredits + amount })

/-- `resetCredits()`: zeroes `usedCredits`, stamps `lastResetDate` with
`Date.now()`. -/
def UserCredit.resetCredits (c : UserCredit) (now : Nat) : Bool × UserCredit :=
  (true, { c with usedCredits := 0, lastResetDate := now })

/-- `updateTotalCredits(newTotal)`: sets the total and caps `usedCredits`. -/
def UserCredit.updateTotalCredits (c : UserCredit) (newTotal : Int) : Bool × UserCredit :=
  let c1 := { c with totalCredits := newTotal }
  if c1.usedCredits > c1.totalCredits then
    (true, { c1 with usedCredits := c1.totalCredits })
  else
    (true, c1)

/-- The account invariant `0 <= usedCredits <= totalCredits`. -/
def UserCredit.Inv (c : UserCredit) : Prop :=
  0 ≤ c.usedCredits ∧ c.usedCredits ≤ c.totalCredits

instance (c : UserCredit) : Decidable c.Inv := by
  unfold UserCredit.Inv; infer_instance

/-! ## `controllers/userController.js`: `useCredits` -/

/-- The JSON answers of the `POST /api/users/credits/use` handler. -/
inductive UseCreditsResponse where
  | ok (total used available : Int)
  | notEnough
  deriving DecidableEq, Repr

/-- The `useCredits` request handler: `amount` defaults to 1 when the body
has none, the credit record is created when the caller has none, and the
document method decides.  Returns the answer and the stored record. -/
def useCreditsHandler (now : Nat) (stored : Option UserCredit) (bodyAmount : Option Int) :
    UseCreditsResponse × UserCredit :=
  let amount := bodyAmount.getD 1
  let userCredit := stored.getD (UserCredit.create now)
  let r := userCredit.useCredits amount
  if r.1 then
    (.ok r.2.totalCredits r.2.usedCredits (r.2.totalCredits - r.2.usedCredits), r.2)
  else
    (.notEnough, r.2)

/-! ## `models/promptSystemModel.js` -/

/-- One clause of a prompt variant: `{ variable, operator, value }`; the
field `variable` is `varName` here. -/
structure Condition where
  varName : String
  operator : String
  value : String
  deriving DecidableEq, Repr

/-- One prompt variant: `{ name, content, order, conditions }`. -/
structure Prompt where
  name : String
  content : String
  order : Int
  conditions : List Condition
  deriving DecidableEq, Repr

/-- The `variables` object handed to `generatePrompt`, a plain object: the
list holds its own keys with their string values. -/
abbrev Variables := List (String × String)

/-- A number: the value `parseFloat` returns.  A finite value is written as
the exact decimal `mant * 10 ^ exp`, which every double has. -/
inductive JSNum where
  | nan
  | inf (negative : Bool)
  | fin (mant : Int) (exp : Int)
  deriving DecidableEq, Repr

/-- JavaScript `a < b` on numbers: false whenever an operand is `NaN`. -/
def JSNum.lt : JSNum → JSNum → Bool
  | .fin m1 e1, .fin m2 e2 =>
      let e := min e1 e2
      decide (m1 * 10 ^ (e1 - e).toNat < m2 * 10 ^ (e2 - e).toNat)
  | .inf n1, .fin _ _ => n1
  | .fin _ _, .inf n2 => !n2
  | .inf n1, .inf n2 => n1 && !n2
  | _, _ => false

/-- JavaScript `a > b` on numbers. -/
def JSNum.gt (a b : JSNum) : Bool := JSNum.lt b a

/-- Code points of WhiteSpace and LineTerminator, which `parseFloat` skips. -/
def isJsWhiteSpace (c : Char) : Bool :=
  let n := c.toNat
  n == 9 || n == 10 || n == 11 || n == 12 || n == 13 || n == 32 || n == 160 ||
  n == 5760 || (8192 ≤ n && n ≤ 8202) || n == 8232 || n == 8233 || n == 8239 ||
  n == 8287 || n == 12288 || n == 65279

/-- A decimal digit `0`..`9`. -/
def isDecimalDigit (c : Char) : Bool := 48 ≤ c.toNat && c.toNat ≤ 57

/-- The number written by a run of decimal digits. -/
def digitsValue (ds : List Char) : Nat :=
  ds.foldl (fun acc c => 10 * acc + (c.toNat - 48)) 0

/-- The value of an `ExponentPart` at the head of `s` (`e` or `E`, an
optional sign, at least one digit), 0 when there is none. -/
def parseExponent (s : List Char) : Int :=
  match s with
  | [] => 0
  | c :: t =>
    if c.toNat == 101 || c.toNat == 69 then
      let signed : Int × List Char :=
        match t with
        | [] => (1, t)
        | d :: u => if d.toNat == 43 then (1, u) else if d.toNat == 45 then (-1, u) else (1, t)
      let ed := signed.2.takeWhile isDecimalDigit
      if ed.isEmpty then 0 else signed.1 * (digitsValue ed : Int)
    else 0

/-- The function `floorLog2` with explicit fuel: halve `n` until it is below 2. -/
def log2Fuel : Nat → Nat → Nat
  | 0, _ => 0
  | fuel + 1, n => if n ≥ 2 then log2Fuel fuel (n / 2) + 1 else 0

/-- The position of the leading bit of `n`: the integer part of the binary
logarithm (0 for `n = 0`). -/
def floorLog2 (n : Nat) : Nat := log2Fuel n n

/-- The double nearest to the rational `num / den` (ties to the even
significand), with the given sign: `Number` values are IEEE 754 binary64, so
the result is a multiple `n * 2 ^ k` of the unit in the last place with
`n < 2 ^ 53`, written as an exact decimal; values too large for a double
become infinite and values below half the smallest subnormal become zero. -/
def roundToDouble (negative : Bool) (num den : Nat) : JSNum :=
  if num = 0 then .fin 0 0
  else
    let d : Int := (floorLog2 num : Int) - (floorLog2 den : Int)
    let e : Int := if num * 2 ^ (-d).toNat ≥ den * 2 ^ d.toNat then d else d - 1
    let k : Int := max e (-1022) - 52
    let scaledNum := num * 2 ^ (-k).toNat
    let scaledDen := den * 2 ^ k.toNat
    let q := scaledNum / scaledDen
    let r := scaledNum % scaledDen
    let n :=
      if 2 * r < scaledDen then q
      else if 2 * r > scaledDen then q + 1
      else if q % 2 = 0 then q else q + 1
    if n * 2 ^ k.toNat ≥ 2 ^ 1024 * 2 ^ (-k).toNat then .inf negative
    else
      let m : Int := if k ≥ 0 then ((n * 2 ^ k.toNat : Nat) : Int) else ((n * 5 ^ (-k).toNat : Nat) : Int)
      .fin (if negative then -m else m) (min k 0)

/-- The longest prefix of `s` that is a `StrUnsignedDecimalLiteral`, as the
double nearest to the decimal it writes, with the given sign; `NaN` when no
prefix is one. -/
def parseUnsignedDecimal (negative : Bool) (s : List Char) : JSNum :=
  if "Infinity".toList.isPrefixOf s then .inf negative
  else
    let ip := s.takeWhile isDecimalDigit
    let r1 := s.dropWhile isDecimalDigit
    let frac : List Char × List Char :=
      match r1 with
      | [] => ([], r1)
      | c :: t =>
        if c.toNat == 46 then (t.takeWhile isDecimalDigit, t.dropWhile isDecimalDigit)
        else ([], r1)
    if ip.isEmpty && frac.1.isEmpty then .nan
    else
      let m : Nat := digitsValue (ip ++ frac.1)
      let x : Int := parseExponent frac.2 - (frac.1.length : Int)
      roundToDouble negative (m * 10 ^ x.toNat) (10 ^ (-x).toNat)

/-- JavaScript `parseFloat` on a string: skip leading white space, read an
optional sign, then the longest decimal literal. -/
def parseFloat (s : String) : JSNum :=
  match s.toList.dropWhile isJsWhiteSpace with
  | [] => .nan
  | c :: t =>
    if c.toNat == 43 then parseUnsignedDecimal false t
    else if c.toNat == 45 then parseUnsignedDecimal true t
    else parseUnsignedDecimal false (c :: t)

/-- The names every plain object inherits from `Object.prototype`: reading
one of them on an object without an own key of that name yields a function
(the prototype object for `__proto__`), not `undefined`. -/
def objectPrototypeKeys : List String :=
  ["constructor", "__defineGetter__", "__defineSetter__", "hasOwnProperty",
   "__lookupGetter__", "__lookupSetter__", "isPrototypeOf", "propertyIsEnumerable",
   "toString", "valueOf", "__proto__", "toLocaleString"]

/-- What `variables[name]` evaluates to: `undefined`, the string stored under
an own key, or a function or object inherited from `Object.prototype`. -/
inductive JSValue where
  | undefined
  | str (s : String)
  | inherited
  deriving DecidableEq, Repr

/-- The property read `variables[name]` on a plain object: the own key if
there is one, else the prototype's member, else `undefined`. -/
def readProperty (vars : Variables) (name : String) : JSValue :=
  match vars.lookup name with
  | some s => .str s
  | none => if objectPrototypeKeys.contains name then .inherited else .undefined

/-- How an evaluation ends: with a value, or with a thrown `TypeError`. -/
inductive Completion (α : Type) where
  | normal (value : α)
  | typeError
  deriving DecidableEq, Repr

/-- JavaScript `!variableValue`: `undefined` and the empty string are falsy,
functions and objects are not. -/
def isFalsy (v : JSValue) : Bool :=
  match v with
  | .undefined => true
  | .str s => s.isEmpty
  | .inherited => false

/-- JavaScript `a.includes(b)` on strings. -/
def jsIncludes (a b : String) : Bool := decide (b.toList <:+: a.toList)

/-- JavaScript `parseFloat(variableValue)`: a string is parsed; `undefined`,
a function and the prototype object are first turned into text that is not a
number. -/
def parseFloatValue (v : JSValue) : JSNum :=
  match v with
  | .str s => parseFloat s
  | _ => .nan

/-- The callback of `prompt.conditions.every(...)` in `generatePrompt`;
`includes` exists on strings only, so `contains` on an inherited member
throws. -/
def conditionHolds (vars : Variables) (condition : Condition) : Completion Bool :=
  let variableValue := readProperty vars condition.varName
  if isFalsy variableValue && condition.operator != "notExists" then .normal false
  else if condition.operator == "equals" then
    .normal (variableValue == JSValue.str condition.value)
  else if condition.operator == "contains" then
    match variableValue with
    | .str s => .normal (jsIncludes s condition.value)
    | _ => .typeError
  else if condition.operator == "greaterThan" then
    .normal (JSNum.gt (parseFloatValue variableValue) (parseFloat condition.value))
  else if condition.operator == "lessThan" then
    .normal (JSNum.lt (parseFloatValue variableValue) (parseFloat condition.value))
  else if condition.operator == "exists" then .normal (variableValue != JSValue.undefined)
  else if condition.operator == "notExists" then .normal (variableValue == JSValue.undefined)
  else .normal false

/-- `conditions.every(callback)`: the clauses are evaluated in order up to
the first that is false; a throwing callback ends the evaluation. -/
def everyCondition (vars : Variables) : List Condition → Completion Bool
  | [] => .normal true
  | c :: rest =>
    match conditionHolds vars c with
    | .normal true => everyCondition vars rest
    | .normal false => .normal false
    | .typeError => .typeError

/-- The callback of `this.prompts.filter(...)`: a prompt with no conditions
is the default, otherwise every condition has to hold. -/
def promptMatches (vars : Variables) (prompt : Prompt) : Completion Bool :=
  if prompt.conditions.length == 0 then .normal true
  else everyCondition vars prompt.conditions

/-- `this.prompts.filter(callback)`: the variants the callback keeps, in
declaration order; a throwing callback ends the evaluation. -/
def filterPrompts (vars : Variables) : List Prompt → Completion (List Prompt)
  | [] => .normal []
  | p :: rest =>
    match promptMatches vars p with
    | .typeError => .typeError
    | .normal keep =>
      match filterPrompts vars rest with
      | .typeError => .typeError
      | .normal kept => .normal (if keep then p :: kept else kept)

/-- The comparator `(a, b) => a.order - b.order` as an order relation. -/
def orderLE (a b : Prompt) : Prop := a.order ≤ b.order

instance : DecidableRel orderLE := fun a b => by
  unfold orderLE; infer_instance

/-- The array `matchingPrompts`: the filter followed by the (stable) sort. -/
def matchingPrompts (prompts : List Prompt) (vars : Variables) : Completion (List Prompt) :=
  match filterPrompts vars prompts with
  | .typeError => .typeError
  | .normal kept => .normal (kept.insertionSort orderLE)

/-- The value of `this.prompts[0]?.content || ''`. -/
def firstPromptContent (prompts : List Prompt) : String :=
  match prompts with
  | [] => ""
  | p :: _ => p.content

/-- The document method `generatePrompt(variables)`. -/
def generatePrompt (prompts : List Prompt) (vars : Variables) : Completion String :=
  if prompts.length > 1 then
    match matchingPrompts prompts vars with
    | .typeError => .typeError
    | .normal (p :: _) => .normal p.content
    | .normal [] => .normal (firstPromptContent prompts)
  else .normal (firstPromptContent prompts)

/-- The specification's reading of one clause (section 4.2) on a context that
maps variable names to strings: `equals` asks for string equality, `contains`
for a substring, `greaterThan` and `lessThan` for the numeric order of the
two parsed sides, `exists` for a present variable; on an absent variable only
`notExists` is satisfied. -/
def specClauseSatisfied (context : Variables) (clause : Condition) : Bool :=
  match context.lookup clause.varName with
  | none => clause.operator == "notExists"
  | some v =>
    if clause.operator == "equals" then v == clause.value
    else if clause.operator == "contains" then jsIncludes v clause.value
    else if clause.operator == "greaterThan" then
      JSNum.gt (parseFloat v) (parseFloat clause.value)
    else if clause.operator == "lessThan" then
      JSNum.lt (parseFloat v) (parseFloat clause.value)
    else if clause.operator == "exists" then true
    else false

/-- The specification's "fully satisfied": every clause of the variant is
satisfied; a variant without clauses always is. -/
def specFullyMatches (context : Variables) (prompt : Prompt) : Bool :=
  prompt.conditions.all (specClauseSatisfied context)

/-- The clause reads an own key of the context or a name that no plain object
inherits. -/
def readsOwnOrAbsent (context : Variables) (clause : Condition) : Bool :=
  (context.lookup clause.varName).isSome || !objectPrototypeKeys.contains clause.varName

/-- The value the clause reads is not the empty string. -/
def readsNonEmpty (context : Variables) (clause : Condition) : Bool :=
  context.lookup clause.varName != some ""

/-! ## `models/agentModel.js`, `models/agentPerformanceModel.js`,
`models/agentActivityModel.js` -/

/-- The fields of the `Agent` document the request pipeline reads or writes.
`aiModel` is one of `whatco-small`, `whatco-large`, `gemini-pro` and `status`
one of `active`, `inactive`, `paused` (schema enums). -/
structure Agent where
  id : String
  name : String
  aiModel : String
  promptSystem : String
  status : String
  responses : Int
  accuracy : ℚ
  lastActive : Option Nat
  deriving DecidableEq, Repr

/-- The values the schema allows for `aiModel`. -/
def aiModelEnum : List String := ["whatco-small", "whatco-large", "gemini-pro"]

/-- One turn of the conversation history. -/
structure Message where
  role : String
  content : String
  deriving DecidableEq, Repr

/-- The body of a process request: `{ query, history }`. -/
structure RequestData where
  query : Option String
  history : Option (List Message)
  deriving DecidableEq, Repr

/-- The result object of a generation, as `geminiService.processAgentRequest`
and `agent.processRequest` return it. -/
structure GenResult where
  success : Bool
  response : String
  error : Option String
  responseTime : Option ℚ
  tokenUsage : Option Int
  model : Option String
  deriving DecidableEq, Repr

/-- The `AgentPerformance` document: one bucket per agent and day. -/
structure AgentPerformance where
  agentId : String
  date : Nat
  totalResponses : Int
  successfulResponses : Int
  failedResponses : Int
  averageResponseTime : ℚ
  accuracy : ℚ
  tokenUsage : Int
  deriving DecidableEq, Repr

/-- The `metrics` argument of `recordAgentPerformance`; an absent key is
`none`. -/
structure Metrics where
  totalResponses : Option Int
  successfulResponses : Option Int
  failedResponses : Option Int
  responseTime : Option ℚ
  accuracy : Option ℚ
  tokenUsage : Option Int
  deriving DecidableEq, Repr

/-- The `AgentActivity` document written by `logAgentActivity`; the metadata
object is kept as the fields the pipeline puts in it. -/
structure AgentActivity where
  agentId : String
  type : String
  description : String
  metaQuery : Option String
  metaSuccess : Option Bool
  metaResponseTime : Option ℚ
  metaTokenUsage : Option Int
  metaModel : Option String
  timestamp : Nat
  deriving DecidableEq, Repr

/-- What the outside world supplies to one request: the clock, the outcome of
the Gemini service call, the two `Math.random()` draws of the simulated
`agent.processRequest`, the measured response time and whether the activity
store accepts a write. -/
structure Env where
  now : Nat
  today : Nat
  gemini : Agent → RequestData → GenResult
  randomSuccess : ℚ
  randomTokens : ℚ
  responseTime : ℚ
  activityStoreOk : Bool

/-- The rolling accuracy update shared by `agent.processRequest` and the
controller: `responses` is the counter after its increment. -/
def updateAccuracy (accuracy : ℚ) (responses : Int) (success : Bool) : ℚ :=
  if responses = 1 then (if success then 100 else 0)
  else (accuracy * ((responses : ℚ) - 1) + (if success then 100 else 0)) / (responses : ℚ)

/-- The document method `agent.processRequest(requestData)` (the simulated
generation): it draws the outcome, bumps `responses`, `lastActive` and
`accuracy` on the agent, saves, and returns the result object. -/
def Agent.processRequest (agent : Agent) (env : Env) (elapsed : ℚ) (requestData : RequestData) :
    GenResult × Agent :=
  let isLargeModel := agent.aiModel == "whatco-large"
  let success := decide (env.randomSuccess > (if isLargeModel then (5 : ℚ) / 100 else 15 / 100))
  let tokenUsage : Int := Int.floor (env.randomTokens * 500) + 100
  let responses := agent.responses + 1
  let agent1 : Agent :=
    { agent with
      responses := responses
      lastActive := some env.now
      accuracy := updateAccuracy agent.accuracy responses success }
  let query := requestData.query.getD "undefined"
  if success then
    ({ success := true
       response := "Response from " ++ agent.name ++ " agent (using " ++
         (if agent.aiModel == "whatco-small" then "WhatCoLLM-Small" else "WhatCoLLM-Large") ++ ")" ++
         (if (requestData.history.getD []).length > 0 then " (with conversation context)" else "") ++
         ": I processed your request about \"" ++ query ++ "\""
       error := none
       responseTime := some elapsed
       tokenUsage := some tokenUsage
       model := some agent.aiModel }, agent1)
  else
    ({ success := false
       response := "I'm sorry, I couldn't process your request about \"" ++ query ++
         "\" at this time."
       error := some "Processing error occurred"
       responseTime := some elapsed
       tokenUsage := some (tokenUsage / 2)
       model := some agent.aiModel }, agent1)

/-! ## `controllers/agentController.js` -/

/-- The stored state one request touches: the agent found by id, the caller's
credit record, the performance buckets and the activity log. -/
structure World where
  agent : Option Agent
  credit : Option UserCredit
  performance : List AgentPerformance
  activities : List AgentActivity
  deriving DecidableEq, Repr

/-- `logAgentActivity`: appends the activity; a rejected write is caught and
only logged to the console. -/
def logAgentActivity (env : Env) (activities : List AgentActivity) (a : AgentActivity) :
    List AgentActivity :=
  if env.activityStoreOk then activities ++ [a] else activities

/-- The query of `AgentPerformance.findOne`: the bucket of this agent whose
date lies in today's 24 hours. -/
def isTodaysBucket (today : Nat) (agentId : String) (p : AgentPerformance) : Bool :=
  p.agentId == agentId && decide (today ≤ p.date) && decide (p.date < today + 24 * 60 * 60 * 1000)

/-- The metric updates of `recordAgentPerformance` on the bucket found or
created. -/
def applyMetrics (performance : AgentPerformance) (metrics : Metrics) : AgentPerformance :=
  let p1 := match metrics.totalResponses with
    | some d => { performance with totalResponses := performance.totalResponses + d }
    | none => performance
  let p2 := match metrics.successfulResponses with
    | some d => { p1 with successfulResponses := p1.successfulResponses + d }
    | none => p1
  let p3 := match metrics.failedResponses with
    | some d => { p2 with failedResponses := p2.failedResponses + d }
    | none => p2
  let p4 := match metrics.responseTime with
    | some rt =>
      let currentTotal := p3.averageResponseTime * ((p3.totalResponses : ℚ) - 1)
      let newTotal := currentTotal + rt
      { p3 with averageResponseTime := newTotal / (p3.totalResponses : ℚ) }
    | none => p3
  let p5 := match metrics.accuracy with
    | some a => { p4 with accuracy := a }
    | none => p4
  match metrics.tokenUsage with
  | some d => { p5 with tokenUsage := p5.tokenUsage + d }
  | none => p5

/-- Saving the bucket: the found document is replaced in place, a new one is
added to the collection. -/
def saveBucket (today : Nat) (agentId : String) (buckets : List AgentPerformance)
    (updated : AgentPerformance) : List AgentPerformance :=
  match buckets with
  | [] => [updated]
  | p :: rest =>
    if isTodaysBucket today agentId p then updated :: rest
    else p :: saveBucket today agentId rest updated

/-- `recordAgentPerformance(agentId, metrics)`: find or create today's
bucket, apply the metrics, save. -/
def recordAgentPerformance (today : Nat) (buckets : List AgentPerformance) (agentId : String)
    (metrics : Metrics) : List AgentPerformance :=
  let performance : AgentPerformance :=
    match buckets.find? (isTodaysBucket today agentId) with
    | some p => p
    | none =>
      { agentId := agentId, date := today, totalResponses := 0, successfulResponses := 0
        failedResponses := 0, averageResponseTime := 0, accuracy := 0, tokenUsage := 0 }
  saveBucket today agentId buckets (applyMetrics performance metrics)

/-- The answers of `processAgentRequest`. -/
inductive Response where
  | queryRequired
  | agentNotFound
  | agentNotActive (agentStatus : String)
  | insufficientCredits (availableCredits requiredCredits : Int)
  | ok (result : GenResult)
  deriving DecidableEq, Repr

/-- What one run of `processAgentRequest` leaves behind: the answer, the
stored state, and how often each generation path was invoked. -/
structure Outcome where
  response : Response
  world : World
  geminiCalls : Nat
  simulatedCalls : Nat

/-- The gate `agent.aiModel === 'whatco-small' || agent.aiModel ===
'whatco-large'` that guards both the credit check and the Gemini path. -/
def usesGemini (agent : Agent) : Bool :=
  agent.aiModel == "whatco-small" || agent.aiModel == "whatco-large"

/-- The cost computed before the generation (lines 404 to 407):
`let creditCost = 1; if (large || gemini-pro) creditCost = 2`. -/
def preCheckCost (aiModel : String) : Int :=
  if aiModel == "whatco-large" || aiModel == "gemini-pro" then 2 else 1

/-- The cost computed for the deduction (line 435):
`large || gemini-pro ? 2 : 1`. -/
def deductionCost (aiModel : String) : Int :=
  if aiModel == "whatco-large" || aiModel == "gemini-pro" then 2 else 1

/-- The tail of `processAgentRequest` after the generation: agent counters,
activity log, performance bucket, answer. -/
def finishRequest (env : Env) (w : World) (agent : Agent) (query : String) (result : GenResult)
    (geminiCalls simulatedCalls : Nat) : Outcome :=
  let responseTime := env.responseTime
  let responses := agent.responses + 1
  let agent1 : Agent :=
    { agent with
      lastActive := some env.now
      responses := responses
      accuracy := updateAccuracy agent.accuracy responses result.success }
  let activities := logAgentActivity env w.activities
    { agentId := agent1.id
      type := "interaction"
      description := "Agent processed request: \"" ++ query.take 50 ++
        (if query.length > 50 then "..." else "") ++ "\""
      metaQuery := some query
      metaSuccess := some result.success
      metaResponseTime := some responseTime
      metaTokenUsage := result.tokenUsage
      metaModel := some agent1.aiModel
      timestamp := env.now }
  let performance := recordAgentPerformance env.today w.performance agent1.id
    { totalResponses := some 1
      successfulResponses := some (if result.success then 1 else 0)
      failedResponses := some (if result.success then 0 else 1)
      responseTime := some responseTime
      accuracy := some agent1.accuracy
      tokenUsage := some (result.tokenUsage.getD 0) }
  { response := .ok result
    world := { w with agent := some agent1, activities := activities, performance := performance }
    geminiCalls := geminiCalls
    simulatedCalls := simulatedCalls }

/-- The request handler `processAgentRequest` (`POST /api/agents/:id/process`)
run on the stored state `w`, the store answering every read and write (the
`catch` branch, which answers 500, is not reached). -/
def processAgentRequest (env : Env) (w : World) (req : RequestData) : Outcome :=
  match req.query with
  | none => { response := .queryRequired, world := w, geminiCalls := 0, simulatedCalls := 0 }
  | some query =>
    if query.isEmpty then
      { response := .queryRequired, world := w, geminiCalls := 0, simulatedCalls := 0 }
    else
      match w.agent with
      | none => { response := .agentNotFound, world := w, geminiCalls := 0, simulatedCalls := 0 }
      | some agent =>
        if agent.status != "active" then
          { response := .agentNotActive agent.status, world := w
            geminiCalls := 0, simulatedCalls := 0 }
        else if usesGemini agent then
          let userCredit := w.credit.getD (UserCredit.create env.now)
          let w1 : World := { w with credit := some userCredit }
          let creditCost := preCheckCost agent.aiModel
          let availableCredits := userCredit.getAvailableCredits
          if availableCredits < creditCost then
            { response := .insufficientCredits availableCredits creditCost, world := w1
              geminiCalls := 0, simulatedCalls := 0 }
          else
            let result := env.gemini agent { query := some query, history := some (req.history.getD []) }
            let w2 : World :=
              if result.success then
                { w1 with credit := some (userCredit.useCredits (deductionCost agent.aiModel)).2 }
              else w1
            finishRequest env w2 agent query result 1 0
        else
          let r := agent.processRequest env env.responseTime { query := some query, history := req.history }
          finishRequest env w r.2 query r.1 0 1

/-! ## `controllers/testController.js` -/

/-- The cost computed before the test generation (lines 43 to 46). -/
def testPreCheckCost (model : String) : Int :=
  if model == "whatco-large" || model == "gemini-pro" then 2 else 1

/-- The cost computed for the test deduction (line 77). -/
def testDeductionCost (model : String) : Int :=
  if model == "whatco-large" || model == "gemini-pro" then 2 else 1

/-- The `modelCosts` object answered by `getTestCredits`. -/
def modelCosts : List (String × Int) :=
  [("whatco-small", 1), ("whatco-large", 2), ("gemini-pro", 2)]

/-- The answers of `testGeminiAPI`. -/
inductive TestResponse where
  | queryRequired
  | invalidModel
  | insufficientCredits (availableCredits requiredCredits : Int)
  | ok (result : GenResult) (creditCost availableCreditsRemaining : Int)
  deriving DecidableEq, Repr

/-- The request handler `testGeminiAPI`: `model` defaults to `whatco-small`
and `systemPrompt` to a fixed sentence; returns the answer and the caller's
credit record as stored afterwards. -/
def testGeminiAPI (env : Env) (stored : Option UserCredit) (query : Option String)
    (bodyModel bodySystemPrompt : Option String) : TestResponse × Option UserCredit :=
  let model := bodyModel.getD "whatco-small"
  let systemPrompt := bodySystemPrompt.getD "You are a helpful assistant."
  match query with
  | none => (.queryRequired, stored)
  | some q =>
    if q.isEmpty then (.queryRequired, stored)
    else if !(aiModelEnum.contains model) then (.invalidModel, stored)
    else
      let userCredit := stored.getD (UserCredit.create env.now)
      let creditCost := testPreCheckCost model
      let availableCredits := userCredit.getAvailableCredits
      if availableCredits < creditCost then
        (.insufficientCredits availableCredits creditCost, some userCredit)
      else
        let mockAgent : Agent :=
          { id := "", name := "Test Agent", aiModel := model, promptSystem := systemPrompt
            status := "", responses := 0, accuracy := 0, lastActive := none }
        let result := env.gemini mockAgent { query := some q, history := some [] }
        let userCredit1 :=
          if result.success then (userCredit.useCredits (testDeductionCost model)).2
          else userCredit
        (.ok result creditCost userCredit1.getAvailableCredits, some userCredit1)

/-! ## Concurrent requests against one credit record

The handler reads and writes the credit record in separate round trips to the
store: `findOne` before the generation (line 392), `findOne` after it (line
434), and `save` inside `useCredits` (line 46 of the model), which stores the
`usedCredits` of the document it was called on.  Requests in flight interleave
at these round trips. -/

/-- Where a request in flight stands: nothing read yet; pre-check passed and
generation pending; the second `findOne` answered with `doc`; done, with or
without a debit saved. -/
inductive Phase where
  | start
  | generating
  | loaded (doc : UserCredit)
  | finished (debited : Bool)
  deriving DecidableEq, Repr

/-- A request in flight on a Gemini-gated agent: its model, whether its
generation succeeds, and its phase. -/
structure Flight where
  aiModel : String
  success : Bool
  phase : Phase
  deriving DecidableEq, Repr

/-- The stored credit record and the requests in flight against it. -/
structure Shared where
  credit : UserCredit
  flights : List Flight
  deriving DecidableEq, Repr

/-- The next round trip of one request, on the record as stored now. -/
def stepFlight (credit : UserCredit) (f : Flight) : UserCredit × Flight :=
  match f.phase with
  | .start =>
    if credit.getAvailableCredits < preCheckCost f.aiModel then
      (credit, { f with phase := .finished false })
    else (credit, { f with phase := .generating })
  | .generating =>
    if f.success then (credit, { f with phase := .loaded credit })
    else (credit, { f with phase := .finished false })
  | .loaded doc =>
    let r := doc.useCredits (deductionCost f.aiModel)
    if r.1 then
      ({ credit with usedCredits := r.2.usedCredits }, { f with phase := .finished true })
    else (credit, { f with phase := .finished false })
  | .finished _ => (credit, f)

/-- One step of the system: request number `i` makes its next round trip. -/
def stepAt (s : Shared) (i : Nat) : Shared :=
  match s.flights[i]? with
  | none => s
  | some f => { credit := (stepFlight s.credit f).1, flights := s.flights.set i (stepFlight s.credit f).2 }

/-- The system after the round trips of a schedule, in its order. -/
def run (s : Shared) (schedule : List Nat) : Shared := schedule.foldl stepAt s

/-- The cost a request has been debited: its scheduled cost once its debit
is saved, nothing otherwise. -/
def debit (f : Flight) : Int :=
  if f.phase = .finished true then deductionCost f.aiModel else 0

/-- The sum of the costs of the requests that were debited. -/
def debitedCost (flights : List Flight) : Int := (flights.map debit).sum

/-- The schedule without interleaving: requests `k`, `k + 1`, ... each make
their three round trips before the next request starts. -/
def serialFrom (k : Nat) : Nat → List Nat
  | 0 => []
  | n + 1 => k :: k :: k :: serialFrom (k + 1) n

/-- What every reachable state of the concurrent system satisfies, for a
record of total `total` that started at `base` used credits: the stored
`usedCredits` is within the total and within `base` plus the debits saved,
and so is every document a request holds. -/
def Shared.Inv (total base : Int) (s : Shared) : Prop :=
  s.credit.totalCredits = total ∧ s.credit.usedCredits ≤ total ∧
  s.credit.usedCredits ≤ base + debitedCost s.flights ∧
  ∀ f ∈ s.flights, ∀ doc, f.phase = .loaded doc →
    doc.totalCredits = total ∧ doc.usedCredits ≤ base + debitedCost s.flights

/-- The three round trips of one request with no other request in between. -/
def serveAlone (credit : UserCredit) (f : Flight) : UserCredit × Flight :=
  let r1 := stepFlight credit f
  let r2 := stepFlight r1.1 r1.2
  stepFlight r2.1 r2.2

/-- Two successful `whatco-small` requests, not started. -/
def twoFlights : List Flight :=
  [ { aiModel := "whatco-small", success := true, phase := .start },
    { aiModel := "whatco-small", success := true, phase := .start } ]

/-- The mathematical order of parsed numbers: a finite value is the rational
`mant * 10 ^ exp`, minus infinity is below and plus infinity above every
finite value, and `NaN` is not comparable. -/
def JSNum.Less : JSNum → JSNum → Prop
  | .fin m1 e1, .fin m2 e2 => (m1 : ℚ) * (10 : ℚ) ^ e1 < (m2 : ℚ) * (10 : ℚ) ^ e2
  | .inf n1, .fin _ _ => n1 = true
  | .fin _ _, .inf n2 => n2 = false
  | .inf n1, .inf n2 => n1 = true ∧ n2 = false
  | _, _ => False

/-! ## `services/geminiService.js` -/

/-- `mapToGeminiModel(internalModel)`: the `switch` with its default. -/
def mapToGeminiModel (internalModel : String) : String :=
  if internalModel == "whatco-small" then "gemini-2.0-flash"
  else if internalModel == "whatco-large" then "gemini-1.5-pro"
  else if internalModel == "gemini-pro" then "gemini-1.5-pro"
  else "gemini-1.5-pro"

/-- One element of the request's `contents`: `{ role, parts: [{ text }] }`. -/
structure Turn where
  role : String
  text : String
  deriving DecidableEq, Repr

/-- The request body posted to the backend: the turns and the generation
settings; `snakeCaseConfig` tells the Gemini 2.0 form (`generation_config`,
`max_output_tokens`, `top_k`) from the 1.5 form (`generationConfig`,
`maxOutputTokens`, `topK`). -/
structure Payload where
  contents : List Turn
  snakeCaseConfig : Bool
  temperature : ℚ
  maxOutputTokens : Nat
  topK : Nat
  deriving DecidableEq, Repr

/-- The `usageMetadata` object of a backend answer; an unreported count is
`none`. -/
structure UsageMetadata where
  promptTokenCount : Option Int
  candidatesTokenCount : Option Int
  totalTokenCount : Option Int
  deriving DecidableEq, Repr

/-- The part of `response.data` that `generateText` reads:
`candidates?.[0]?.content?.parts?.[0]?.text` and `usageMetadata`. -/
structure BackendData where
  text : Option String
  usageMetadata : Option UsageMetadata
  deriving DecidableEq, Repr

/-- What the call `geminiClient.post` does: it answers with `response.data`
(`none` when the answer carries no data object, on which reading
`candidates` throws), or it throws an error with `error.message` and
possibly `error.response.data.error` (`payloadError`, `none` when the error
carries none). -/
inductive BackendOutcome where
  | response (data : Option BackendData)
  | thrown (payloadError : Option String) (message : String)
  deriving DecidableEq, Repr

/-- The `usage` object of a successful `generateText` result. -/
structure UsageMetrics where
  promptTokens : Int
  candidateTokens : Int
  totalTokens : Int
  deriving DecidableEq, Repr

/-- The object `generateText` returns: `{ success, text, model, usage }` or
`{ success, error, model }`. -/
structure TextResult where
  success : Bool
  text : Option String
  model : String
  usage : Option UsageMetrics
  error : Option String
  deriving DecidableEq, Repr

/-- JavaScript `count || 0` on an optional number. -/
def orZero (count : Option Int) : Int := count.getD 0

/-- The test `model.startsWith('gemini-2.0')`. -/
def isGemini20 (model : String) : Bool := "gemini-2.0".toList.isPrefixOf model.toList

/-- The history mapped to turns: `{ role: msg.role, parts: [{ text: msg.content }] }`. -/
def formatHistory (history : List Message) : List Turn :=
  history.map fun msg => { role := msg.role, text := msg.content }

/-- The request body `generateText` builds for the model. -/
def buildPayload (prompt systemPrompt model : String) (temperature : ℚ) (maxTokens topK : Nat)
    (history : List Message) : Payload :=
  let formattedHistory := formatHistory history
  if isGemini20 model then
    let finalPrompt :=
      if !systemPrompt.isEmpty then systemPrompt ++ "\n\nUser Query: " ++ prompt else prompt
    { contents := formattedHistory ++ [{ role := "user", text := finalPrompt }]
      snakeCaseConfig := true
      temperature := temperature, maxOutputTokens := maxTokens, topK := topK }
  else
    { contents :=
        (if !systemPrompt.isEmpty then [{ role := "system", text := systemPrompt }] else []) ++
          formattedHistory ++ [{ role := "user", text := prompt }]
      snakeCaseConfig := false
      temperature := temperature, maxOutputTokens := maxTokens, topK := topK }

/-- The message of the `TypeError` raised by reading `candidates` of an
answer without data. -/
def missingDataMessage : String := "Cannot read properties of undefined (reading 'candidates')"

/-- `generateText(prompt, systemPrompt, model, temperature, maxTokens, topK,
history)`, the backend being the function from the model id and the request
body to the outcome of the call. -/
def generateText (backend : String → Payload → BackendOutcome) (prompt systemPrompt model : String)
    (temperature : ℚ) (maxTokens topK : Nat) (history : List Message) : TextResult :=
  match backend model (buildPayload prompt systemPrompt model temperature maxTokens topK history) with
  | .response (some result) =>
    { success := true
      text := some (result.text.getD "")
      model := model
      usage := some
        { promptTokens := orZero (result.usageMetadata.bind fun u => u.promptTokenCount)
          candidateTokens := orZero (result.usageMetadata.bind fun u => u.candidatesTokenCount)
          totalTokens := orZero (result.usageMetadata.bind fun u => u.totalTokenCount) }
      error := none }
  | .response none =>
    { success := false, text := none, model := model, usage := none
      error := some missingDataMessage }
  | .thrown payloadError message =>
    { success := false, text := none, model := model, usage := none
      error := some (payloadError.getD message) }

/-- One entry of a knowledge base. -/
structure KnowledgeEntry where
  title : String
  content : String
  deriving DecidableEq, Repr

/-- What the agent's `knowledgeBase` reference leads to: no reference on the
agent, a `findById` that throws, one that finds no document, or the entries
of the document found. -/
inductive KnowledgeLookup where
  | noReference
  | failed
  | missing
  | found (entries : List KnowledgeEntry)
  deriving DecidableEq, Repr

/-- The line block the `forEach` callback appends for the entry at `index`:
the template `[index + 1] title:`, a line break, the content, two line
breaks. -/
def entryBlock (index : Nat) (entry : KnowledgeEntry) : String :=
  "[" ++ toString (index + 1) ++ "] " ++ entry.title ++ ":\n" ++ entry.content ++ "\n\n"

/-- The `forEach` loop over the entries, from position `index` on, appending
to the accumulated text. -/
def appendEntries (acc : String) (index : Nat) : List KnowledgeEntry → String
  | [] => acc
  | entry :: rest => appendEntries (acc ++ entryBlock index entry) (index + 1) rest

/-- The string `knowledgeBaseContent` after the lookup. -/
def knowledgeBaseContent (lookup : KnowledgeLookup) : String :=
  match lookup with
  | .found entries =>
    if entries.length > 0 then appendEntries "\n\nKNOWLEDGE BASE INFORMATION:\n" 0 entries
    else ""
  | _ => ""

/-- The fixed instruction appended after the knowledge base block. -/
def knowledgeInstruction : String :=
  "\nUse the information from the KNOWLEDGE BASE when relevant to answer user queries. " ++
  "If the answer isn't in the knowledge base, respond based on your general knowledge " ++
  "but make it clear when you're doing so."

/-- The string `enhancedSystemPrompt`. -/
def enhancedSystemPrompt (promptSystem : String) (lookup : KnowledgeLookup) : String :=
  let content := knowledgeBaseContent lookup
  if !content.isEmpty then promptSystem ++ ("\n\n" ++ content) ++ knowledgeInstruction
  else promptSystem

/-- The agent's generation settings `temperature`, `maxTokens`, `topK`. -/
structure GenerationParams where
  temperature : ℚ
  maxTokens : Nat
  topK : Nat
  deriving DecidableEq, Repr

/-- The service function `geminiService.processAgentRequest(agent,
requestData)`: `params` and `lookup` are the agent's generation settings and
what its knowledge base reference leads to, `elapsed` the measured time. -/
def geminiProcessAgentRequest (backend : String → Payload → BackendOutcome)
    (lookup : KnowledgeLookup) (params : GenerationParams) (elapsed : ℚ) (agent : Agent)
    (requestData : RequestData) : GenResult :=
  let geminiModel := mapToGeminiModel agent.aiModel
  let result := generateText backend (requestData.query.getD "")
    (enhancedSystemPrompt agent.promptSystem lookup) geminiModel
    params.temperature params.maxTokens params.topK (requestData.history.getD [])
  if result.success then
    { success := true
      response := result.text.getD ""
      error := none
      responseTime := some elapsed
      tokenUsage := result.usage.map fun u => u.totalTokens
      model := some result.model }
  else
    { success := false
      response := "I'm sorry, I couldn't process your request at this time."
      error := result.error
      responseTime := some elapsed
      tokenUsage := none
      model := some result.model }

/-- The enumerated blocks the specification asks for: for the entry at
position `i` (counted from 0) the text `[i + 1] title:`, a line break, the
content in full and two line breaks, in the stored order. -/
def enumeratedBlocks (entries : List KnowledgeEntry) : List String :=
  entries.enum.map fun ie =>
    "[" ++ toString (ie.1 + 1) ++ "] " ++ ie.2.title ++ ":\n" ++ ie.2.content ++ "\n\n"

/-- A backend that reports 3 prompt tokens and 4 candidate tokens and no
total. -/
def backendWithoutTotal : String → Payload → BackendOutcome := fun _ _ =>
  .response (some { text := some "hello"
                    usageMetadata := some { promptTokenCount := some 3
                                            candidatesTokenCount := some 4
                                            totalTokenCount := none } })

/-- A backend that reports 3 prompt tokens, 4 candidate tokens and a total
of 10. -/
def backendWithLargerTotal : String → Payload → BackendOutcome := fun _ _ =>
  .response (some { text := some "hello"
                    usageMetadata := some { promptTokenCount := some 3
                                            candidatesTokenCount := some 4
                                            totalTokenCount := some 10 } })

/-- The generation settings the schema gives by default. -/
def defaultParams : GenerationParams := { temperature := 7 / 10, maxTokens := 1000, topK := 40 }

/-! ## Sample inputs -/

/-- A Gemini service that answers every request successfully with 10 tokens. -/
def sampleGemini : Agent → RequestData → GenResult := fun agent _ =>
  { success := true, response := "ok", error := none, responseTime := some 1
    tokenUsage := some 10, model := some agent.aiModel }

/-- A Gemini service whose every generation fails. -/
def failingGemini : Agent → RequestData → GenResult := fun agent _ =>
  { success := false, response := "I'm sorry, I couldn't process your request at this time."
    error := some "backend error", responseTime := some 1, tokenUsage := none
    model := some agent.aiModel }

/-- An environment in which generations succeed (the simulated one draws 1/2,
above both failure thresholds). -/
def sampleEnv : Env :=
  { now := 0, today := 0, gemini := sampleGemini, randomSuccess := 1 / 2, randomTokens := 0
    responseTime := 1, activityStoreOk := true }

/-- An environment in which the Gemini generation fails. -/
def failingEnv : Env := { sampleEnv with gemini := failingGemini }

/-- An active agent with no responses yet, of the given model. -/
def sampleAgent (aiModel : String) : Agent :=
  { id := "a1", name := "A", aiModel := aiModel, promptSystem := "p", status := "active"
    responses := 0, accuracy := 0, lastActive := none }

/-- A store holding `sampleAgent` and a credit record with the given total
and used credits, no buckets and no activities. -/
def sampleWorld (aiModel : String) (total used : Int) : World :=
  { agent := some (sampleAgent aiModel), credit := some ⟨total, used, 0⟩
    performance := [], activities := [] }

/-- A request with the query `hi` and no history. -/
def sampleRequest : RequestData := { query := some "hi", history := none }

/-- The two variants of the specification's example: `age > 18` with order 2
and `country == "US"` with order 1. -/
def samplePrompts : List Prompt :=
  [ { name := "adult", content := "adult prompt", order := 2
      conditions := [{ varName := "age", operator := "greaterThan", value := "18" }] },
    { name := "us", content := "US prompt", order := 1
      conditions := [{ varName := "country", operator := "equals", value := "US" }] } ]

/-- A variant without conditions. -/
def defaultPrompt : Prompt :=
  { name := "default", content := "default prompt", order := 5, conditions := [] }

/-- Two variants for the empty context: the first asks that `constructor` be
absent, the second has no conditions. -/
def inheritedNotExistsPrompts : List Prompt :=
  [ { name := "fresh", content := "fresh prompt", order := 1
      conditions := [{ varName := "constructor", operator := "notExists", value := "" }] },
    { name := "default", content := "default prompt", order := 2, conditions := [] } ]

/-- Two variants for a context whose `x` is the empty string: the first asks
that `x` equal the empty string, the second has no conditions. -/
def emptyStringPrompts : List Prompt :=
  [ { name := "blank", content := "blank prompt", order := 1
      conditions := [{ varName := "x", operator := "equals", value := "" }] },
    { name := "default", content := "default prompt", order := 2, conditions := [] } ]

/-- Two variants for the empty context: the first asks that `constructor` be
present, the second has no conditions. -/
def inheritedExistsPrompts : List Prompt :=
  [ { name := "built", content := "built prompt", order := 1
      conditions := [{ varName := "constructor", operator := "exists", value := "" }] },
    { name := "default", content := "default prompt", order := 2, conditions := [] } ]

/-- Two variants neither of which the empty context satisfies in the
specification's reading: `x` equal to `a`, and `toString` present. -/
def inheritedFallbackPrompts : List Prompt :=
  [ { name := "first", content := "first prompt", order := 1
      conditions := [{ varName := "x", operator := "equals", value := "a" }] },
    { name := "second", content := "second prompt", order := 2
      conditions := [{ varName := "toString", operator := "exists", value := "" }] } ]

/-- Two variants neither of which the empty context satisfies: `x` equal to
`a`, and `valueOf` containing `x`. -/
def inheritedContainsPrompts : List Prompt :=
  [ { name := "first", content := "first prompt", order := 1
      conditions := [{ varName := "x", operator := "equals", value := "a" }] },
    { name := "second", content := "second prompt", order := 2
      conditions := [{ varName := "valueOf", operator := "contains", value := "x" }] } ]

/-! ## Agent counters, status and reporting -/

/-- The counter and accuracy update of one response, as written both in the
controller (lines 450 to 459) and in `agent.processRequest`: `responses` is
incremented, then the accuracy is recomputed with the new counter. -/
def rollingStep (stats : Int × ℚ) (success : Bool) : Int × ℚ :=
  (stats.1 + 1, updateAccuracy stats.2 (stats.1 + 1) success)

/-- The counter and accuracy after a sequence of responses, oldest first. -/
def rollingAfter (stats : Int × ℚ) (outcomes : List Bool) : Int × ℚ :=
  outcomes.foldl rollingStep stats

/-- The successes among the outcomes. -/
def successCount (outcomes : List Bool) : Nat := outcomes.count true

/-- The metrics of an event that adds one response with the given response
time and nothing else. -/
def timingMetrics (responseTime : ℚ) : Metrics :=
  { totalResponses := some 1, successfulResponses := none, failedResponses := none
    responseTime := some responseTime, accuracy := none, tokenUsage := none }

/-- The buckets after `recordAgentPerformance` was called for each of the
events in turn, on the same day and agent. -/
def recordEvents (today : Nat) (agentId : String) (buckets : List AgentPerformance)
    (events : List Metrics) : List AgentPerformance :=
  events.foldl (fun b m => recordAgentPerformance today b agentId m) buckets

/-- The bucket `recordAgentPerformance` creates when the day has none. -/
def freshBucket (today : Nat) (agentId : String) : AgentPerformance :=
  { agentId := agentId, date := today, totalResponses := 0, successfulResponses := 0
    failedResponses := 0, averageResponseTime := 0, accuracy := 0, tokenUsage := 0 }

/-- The bucket of the agent and day as `AgentPerformance.findOne` answers it. -/
def todaysBucket (today : Nat) (agentId : String) (buckets : List AgentPerformance) :
    Option AgentPerformance :=
  buckets.find? (isTodaysBucket today agentId)

/-- The agent `createAgent` stores: the id is `AGENT_` followed by the clock,
`aiModel` defaults to `whatco-small`, the status is `inactive`, and the
counters take the schema defaults. -/
def createAgent (now : Nat) (name : String) (aiModel : Option String) (promptSystem : String) :
    Agent :=
  { id := "AGENT_" ++ toString now
    name := name
    aiModel := match aiModel with
      | some m => if m.isEmpty then "whatco-small" else m
      | none => "whatco-small"
    promptSystem := promptSystem
    status := "inactive"
    responses := 0
    accuracy := 0
    lastActive := none }

/-- The assignment `agent.status = agent.status === 'active' ? 'inactive' :
'active'`. -/
def toggleStatus (status : String) : String :=
  if status == "active" then "inactive" else "active"

/-- The answers of `toggleAgentStatus`. -/
inductive ToggleResponse where
  | agentNotFound
  | notAuthorized
  | ok (agent : Agent)
  deriving DecidableEq, Repr

/-- The request handler `toggleAgentStatus`: `isOwner` says whether the agent
belongs to the caller; returns the answer, the stored agent and the activity
log. -/
def toggleAgentStatus (env : Env) (stored : Option Agent) (isOwner : Bool)
    (activities : List AgentActivity) : ToggleResponse × Option Agent × List AgentActivity :=
  match stored with
  | none => (.agentNotFound, stored, activities)
  | some agent =>
    if !isOwner then (.notAuthorized, stored, activities)
    else
      let previousStatus := agent.status
      let agent1 : Agent := { agent with status := toggleStatus agent.status }
      let newStatus := agent1.status
      let activities1 := logAgentActivity env activities
        { agentId := agent1.id
          type := "status"
          description := "Agent status changed from " ++ previousStatus ++ " to " ++ newStatus
          metaQuery := none, metaSuccess := none, metaResponseTime := none
          metaTokenUsage := none, metaModel := none
          timestamp := env.now }
      (.ok agent1, some agent1, activities1)

/-- The status after toggling `n` times. -/
def toggleTimes (n : Nat) (status : String) : String :=
  match n with
  | 0 => status
  | k + 1 => toggleStatus (toggleTimes k status)

/-- The transitions the specification allows a toggle to perform. -/
def allowedToggles : List (String × String) :=
  [("inactive", "active"), ("active", "inactive"), ("paused", "active")]

/-- The accuracy `getAgentPerformance` reports for the buckets of the range:
the success ratio of the summed counters as a percentage, the agent's own
accuracy when the range has no responses. -/
def reportedAccuracy (performanceData : List AgentPerformance) (agentAccuracy : ℚ) : ℚ :=
  let totalResponses : Int := (performanceData.map fun d => d.totalResponses).sum
  let totalSuccessfulResponses : Int := (performanceData.map fun d => d.successfulResponses).sum
  if totalResponses > 0 then
    ((totalSuccessfulResponses : ℚ) / (totalResponses : ℚ)) * 100
  else agentAccuracy

/-- The buckets `getAgentPerformance` reads: those of the agent dated within
the range. -/
def bucketsInRange (buckets : List AgentPerformance) (agentId : String)
    (startDate endDate : Nat) : List AgentPerformance :=
  buckets.filter fun d => d.agentId == agentId && decide (startDate ≤ d.date) &&
    decide (d.date ≤ endDate)

/-- The stored state after a sequence of process requests, each with its own
environment, handled one after another. -/
def runRequests (w : World) (events : List (Env × RequestData)) : World :=
  events.foldl (fun v e => (processAgentRequest e.1 v e.2).world) w

/-- The bucket of the day, a fresh one when the day has none yet. -/
def currentBucket (today : Nat) (agentId : String) (w : World) : AgentPerformance :=
  (todaysBucket today agentId w.performance).getD (freshBucket today agentId)

/-- One day in milliseconds. -/
def dayMs : Nat := 24 * 60 * 60 * 1000

/-- The environment of the following day, in which the Gemini generation
fails. -/
def nextDayFailingEnv : Env :=
  { failingEnv with now := dayMs + 1000, today := dayMs }

/-- A backend whose call throws with the payload `quota exceeded`. -/
def throwingBackend : String → Payload → BackendOutcome := fun _ _ =>
  .thrown (some "quota exceeded") "Request failed with status code 429"

/-- An environment like `sampleEnv` whose activity store rejects writes. -/
def rejectingEnv : Env := { sampleEnv with activityStoreOk := false }

end Watix

/-! # Properties -/

namespace Watix

/-! ## Credit account -/

/-- C1: `useCredits(amount)` returns true exactly when
`usedCredits + amount <= totalCredits`; then it adds `amount` to `usedCredits`
and keeps the other fields; otherwise it returns false and the account is
unchanged.  The request handler stores what the method saved. -/
theorem useCredits_contract (c : UserCredit) (amount : Int) (now : Nat) :
    ((c.useCredits amount).1 = true ↔ c.usedCredits + amount ≤ c.totalCredits) ∧
    ((c.useCredits amount).1 = true →
      (c.useCredits amount).2.usedCredits = c.usedCredits + amount ∧
      (c.useCredits amount).2.totalCredits = c.totalCredits ∧
      (c.useCredits amount).2.lastResetDate = c.lastResetDate) ∧
    ((c.useCredits amount).1 = false → (c.useCredits amount).2 = c) ∧
    (useCreditsHandler now (some c) (some amount)).2 = (c.useCredits amount).2 := by
  unfold useCreditsHandler UserCredit.useCredits
  by_cases h : c.usedCredits + amount > c.totalCredits
  · simp [h]
  · simp [h]
    omega

/-- C2 fails as stated: a negative amount is accepted by `useCredits` and a
negative total by `updateTotalCredits`, and each takes an account that
satisfies `0 <= usedCredits <= totalCredits` to one that does not. -/
theorem invariant_broken_by_negative_argument :
    UserCredit.Inv ⟨100, 0, 0⟩ ∧
    (UserCredit.useCredits ⟨100, 0, 0⟩ (-1)).1 = true ∧
    ¬ UserCredit.Inv (UserCredit.useCredits ⟨100, 0, 0⟩ (-1)).2 ∧
    (UserCredit.updateTotalCredits ⟨100, 0, 0⟩ (-1)).1 = true ∧
    ¬ UserCredit.Inv (UserCredit.updateTotalCredits ⟨100, 0, 0⟩ (-1)).2 := by
  decide

/-- C2 (amended): `0 <= usedCredits <= totalCredits` is preserved by
`useCredits(amount)` for every `amount >= 0`, by `resetCredits()`, and by
`updateTotalCredits(newTotal)` for every `newTotal >= 0`. -/
theorem invariant_preserved (c : UserCredit) (h : c.Inv) (amount newTotal : Int) (now : Nat) :
    (0 ≤ amount → (c.useCredits amount).2.Inv) ∧
    (c.resetCredits now).2.Inv ∧
    (0 ≤ newTotal → (c.updateTotalCredits newTotal).2.Inv) := by
  obtain ⟨h0, h1⟩ := h
  refine ⟨fun ha => ?_, ?_, fun hn => ?_⟩
  · unfold UserCredit.useCredits
    by_cases hc : c.usedCredits + amount > c.totalCredits
    · simp only [hc, if_true]; exact ⟨h0, h1⟩
    · simp only [hc, if_false]; constructor <;> simp only <;> omega
  · unfold UserCredit.resetCredits; constructor <;> simp only <;> omega
  · unfold UserCredit.updateTotalCredits
    by_cases hc : c.usedCredits > newTotal
    · simp only [hc, if_true]; constructor <;> simp only <;> omega
    · simp only [hc, if_false]; constructor <;> simp only <;> omega

/-- Witness of `invariant_preserved` on the default account. -/
theorem invariant_preserved_witness :
    UserCredit.Inv ⟨100, 0, 0⟩ ∧
    ((0 : Int) ≤ 2 → (UserCredit.useCredits ⟨100, 0, 0⟩ 2).2.Inv) ∧
    (UserCredit.resetCredits ⟨100, 0, 0⟩ 7).2.Inv ∧
    ((0 : Int) ≤ 50 → (UserCredit.updateTotalCredits ⟨100, 0, 0⟩ 50).2.Inv) :=
  ⟨by decide, invariant_preserved ⟨100, 0, 0⟩ (by decide) 2 50 7⟩

/-- C3: the cost is 1 for `whatco-small` and 2 for `whatco-large` and
`gemini-pro`, and the five places that compute it (pre-check and deduction of
`processAgentRequest`, pre-check and deduction of `testGeminiAPI`, the
`modelCosts` table) give the same value for the same tier. -/
theorem credit_cost_schedule :
    (∀ m : String, deductionCost m = preCheckCost m ∧ testPreCheckCost m = preCheckCost m ∧
      testDeductionCost m = preCheckCost m) ∧
    (∀ m ∈ aiModelEnum, modelCosts.lookup m = some (preCheckCost m)) ∧
    preCheckCost "whatco-small" = 1 ∧ preCheckCost "whatco-large" = 2 ∧
    preCheckCost "gemini-pro" = 2 := by
  refine ⟨fun m => ⟨rfl, rfl, rfl⟩, ?_, by decide, by decide, by decide⟩
  intro m hm
  simp only [aiModelEnum, List.mem_cons, List.mem_singleton, List.not_mem_nil, or_false] at hm
  rcases hm with rfl | rfl | rfl <;> decide

/-! ## Request processing -/

/-- The handler on an active Gemini-gated agent: the credit pre-check, then
the generation and the conditional deduction. -/
theorem processAgentRequest_gemini (env : Env) (w : World) (req : RequestData) (query : String)
    (agent : Agent) (hq : req.query = some query) (hne : query.isEmpty = false)
    (ha : w.agent = some agent) (hs : agent.status = "active") (hg : usesGemini agent = true) :
    processAgentRequest env w req =
      if (w.credit.getD (UserCredit.create env.now)).getAvailableCredits <
          preCheckCost agent.aiModel then
        { response := .insufficientCredits
            (w.credit.getD (UserCredit.create env.now)).getAvailableCredits
            (preCheckCost agent.aiModel)
          world := { w with credit := some (w.credit.getD (UserCredit.create env.now)) }
          geminiCalls := 0, simulatedCalls := 0 }
      else
        finishRequest env
          (if (env.gemini agent { query := some query, history := some (req.history.getD []) }).success
           then { w with credit := some ((w.credit.getD (UserCredit.create env.now)).useCredits
                  (deductionCost agent.aiModel)).2 }
           else { w with credit := some (w.credit.getD (UserCredit.create env.now)) })
          agent query
          (env.gemini agent { query := some query, history := some (req.history.getD []) }) 1 0 := by
  unfold processAgentRequest
  simp only [hq, hne, ha, hs, hg, bne_self_eq_false, Bool.false_eq_true, if_false, if_true]

/-- The handler on an active agent outside the Gemini gate: no credit step,
the simulated generation, then the common tail. -/
theorem processAgentRequest_simulated (env : Env) (w : World) (req : RequestData)
    (query : String) (agent : Agent) (hq : req.query = some query)
    (hne : query.isEmpty = false) (ha : w.agent = some agent) (hs : agent.status = "active")
    (hg : usesGemini agent = false) :
    processAgentRequest env w req =
      finishRequest env w
        (agent.processRequest env env.responseTime { query := some query, history := req.history }).2
        query
        (agent.processRequest env env.responseTime { query := some query, history := req.history }).1
        0 1 := by
  unfold processAgentRequest
  simp only [hq, hne, ha, hs, hg, bne_self_eq_false, Bool.false_eq_true, if_false]

/-- A request that is not answered with a result leaves the agent, the
buckets and the activity log as they were and calls no generation path. -/
theorem processAgentRequest_rejected (env : Env) (w : World) (req : RequestData)
    (h : ∀ r, (processAgentRequest env w req).response ≠ .ok r) :
    (processAgentRequest env w req).world.agent = w.agent ∧
    (processAgentRequest env w req).world.performance = w.performance ∧
    (processAgentRequest env w req).world.activities = w.activities ∧
    ((processAgentRequest env w req).world.credit = w.credit ∨
      (processAgentRequest env w req).world.credit =
        some (w.credit.getD (UserCredit.create env.now))) ∧
    (processAgentRequest env w req).geminiCalls = 0 ∧
    (processAgentRequest env w req).simulatedCalls = 0 := by
  revert h
  unfold processAgentRequest
  split
  · intro _; simp
  · split
    · intro _; simp
    · split
      · intro _; simp
      · split
        · intro _; simp
        · split
          · dsimp only
            split
            · intro _; simp
            · intro h; exact absurd rfl (h _)
          · intro h; exact absurd rfl (h _)

/-- On an active Gemini-gated agent whose caller has enough credits, a
successful generation adds the scheduled cost to `usedCredits`. -/
theorem gemini_success_debits (env : Env) (w : World) (req : RequestData) (query : String)
    (agent : Agent) (c : UserCredit) (hq : req.query = some query) (hne : query.isEmpty = false)
    (ha : w.agent = some agent) (hs : agent.status = "active") (hg : usesGemini agent = true)
    (hc : w.credit = some c) (henough : preCheckCost agent.aiModel ≤ c.getAvailableCredits)
    (hok : (env.gemini agent
      { query := some query, history := some (req.history.getD []) }).success = true) :
    (processAgentRequest env w req).world.credit =
      some { c with usedCredits := c.usedCredits + preCheckCost agent.aiModel } := by
  rw [processAgentRequest_gemini env w req query agent hq hne ha hs hg]
  have hlt : ¬ (c.getAvailableCredits < preCheckCost agent.aiModel) := not_lt.mpr henough
  have hle : ¬ (c.usedCredits + preCheckCost agent.aiModel > c.totalCredits) := by
    unfold UserCredit.getAvailableCredits at henough; omega
  have hd : deductionCost agent.aiModel = preCheckCost agent.aiModel := rfl
  simp only [hc, Option.getD_some, hlt, if_false, hok, if_true, finishRequest,
    UserCredit.useCredits, hd, hle]

/-- C5: when the answer carries a generation result with `success = false`,
the caller's credit record is the one stored before the request (an absent
record can only have been created, with `usedCredits = 0`). -/
theorem failed_generation_keeps_usedCredits (env : Env) (w : World) (req : RequestData)
    (r : GenResult) (hr : (processAgentRequest env w req).response = .ok r)
    (hf : r.success = false) :
    (∀ c, w.credit = some c → (processAgentRequest env w req).world.credit = some c) ∧
    (w.credit = none →
      ∀ c, (processAgentRequest env w req).world.credit = some c → c.usedCredits = 0) := by
  have key : (processAgentRequest env w req).world.credit = w.credit ∨
      (processAgentRequest env w req).world.credit =
        some (w.credit.getD (UserCredit.create env.now)) := by
    revert hr
    unfold processAgentRequest
    split
    · intro _; exact Or.inl rfl
    · split
      · intro _; exact Or.inl rfl
      · split
        · intro _; exact Or.inl rfl
        · split
          · intro _; exact Or.inl rfl
          · split
            · dsimp only
              split
              · intro _; exact Or.inr rfl
              · intro hr
                simp only [finishRequest, Response.ok.injEq] at hr
                rw [hr, hf]
                exact Or.inr rfl
            · intro _; exact Or.inl rfl
  constructor
  · intro c hc
    rcases key with h | h
    · rw [h, hc]
    · rw [h, hc]; rfl
  · intro hn c hc
    rcases key with h | h
    · rw [h, hn] at hc; cases hc
    · rw [h, hn] at hc
      simp only [Option.getD_none, Option.some.injEq] at hc
      rw [← hc]; rfl

/-- C7: on an active credit-metered agent the answer is "insufficient
credits" exactly when `usedCredits + cost > totalCredits`, which is exactly
when `useCredits(cost)` refuses, and the answer then reports
`totalCredits - usedCredits` and `cost`; `c` is the caller's record, the
default one when none is stored. -/
theorem insufficient_credits_iff (env : Env) (w : World) (req : RequestData) (query : String)
    (agent : Agent) (c : UserCredit) (hq : req.query = some query) (hne : query.isEmpty = false)
    (ha : w.agent = some agent) (hs : agent.status = "active") (hg : usesGemini agent = true)
    (hc : w.credit.getD (UserCredit.create env.now) = c) :
    ((∃ a k, (processAgentRequest env w req).response = .insufficientCredits a k) ↔
      c.usedCredits + preCheckCost agent.aiModel > c.totalCredits) ∧
    ((c.useCredits (preCheckCost agent.aiModel)).1 = false ↔
      c.usedCredits + preCheckCost agent.aiModel > c.totalCredits) ∧
    (∀ a k, (processAgentRequest env w req).response = .insufficientCredits a k →
      a = c.totalCredits - c.usedCredits ∧ k = preCheckCost agent.aiModel) := by
  rw [processAgentRequest_gemini env w req query agent hq hne ha hs hg]
  simp only [hc, UserCredit.getAvailableCredits, UserCredit.useCredits]
  by_cases h : c.totalCredits - c.usedCredits < preCheckCost agent.aiModel
  · have h2 : c.usedCredits + preCheckCost agent.aiModel > c.totalCredits := by omega
    simp only [h, if_true, h2, Response.insufficientCredits.injEq, iff_true, exists_and_left,
      exists_eq', and_true, true_and]
    rintro a k ⟨h1, h3⟩
    exact ⟨h1.symm, h3.symm⟩
  · have h2 : ¬ (c.usedCredits + preCheckCost agent.aiModel > c.totalCredits) := by omega
    simp only [h, if_false, h2, finishRequest, iff_false, not_exists, Bool.true_eq_false,
      reduceCtorEq, not_false_eq_true, implies_true, and_self, false_implies]

/-- Witness of `failed_generation_keeps_usedCredits`: a failed generation on a
`whatco-small` agent leaves `usedCredits` at 5. -/
theorem failed_generation_keeps_usedCredits_witness :
    (processAgentRequest failingEnv (sampleWorld "whatco-small" 100 5) sampleRequest).world.credit =
      some ⟨100, 5, 0⟩ :=
  (failed_generation_keeps_usedCredits failingEnv (sampleWorld "whatco-small" 100 5)
    sampleRequest _ rfl (by decide)).1 _ rfl

/-- Witness of `insufficient_credits_iff`: a `whatco-large` agent and an
account with 1 credit left. -/
theorem insufficient_credits_iff_witness :
    (∃ a k, (processAgentRequest sampleEnv (sampleWorld "whatco-large" 100 99)
      sampleRequest).response = .insufficientCredits a k) ∧
    (processAgentRequest sampleEnv (sampleWorld "whatco-large" 100 99) sampleRequest).response =
      .insufficientCredits 1 2 :=
  ⟨(insufficient_credits_iff sampleEnv (sampleWorld "whatco-large" 100 99) sampleRequest "hi"
      (sampleAgent "whatco-large") ⟨100, 99, 0⟩ rfl (by decide) rfl rfl (by decide) rfl).1.mpr
      (by decide), by decide⟩

/-- C4 at a `gemini-pro` agent: the generation succeeds, the scheduled cost is
2, and `usedCredits` stays 0; `testGeminiAPI` on the same model and account
does add 2. -/
theorem geminiPro_success_not_debited :
    (∃ r, (processAgentRequest sampleEnv (sampleWorld "gemini-pro" 100 0)
      sampleRequest).response = .ok r ∧ r.success = true) ∧
    (processAgentRequest sampleEnv (sampleWorld "gemini-pro" 100 0) sampleRequest).world.credit =
      some ⟨100, 0, 0⟩ ∧
    preCheckCost "gemini-pro" = 2 ∧ deductionCost "gemini-pro" = 2 ∧
    (testGeminiAPI sampleEnv (some ⟨100, 0, 0⟩) (some "hi") (some "gemini-pro") none).2 =
      some ⟨100, 2, 0⟩ := by
  refine ⟨⟨_, rfl, by decide!⟩, by decide, by decide, by decide, by decide⟩

/-- C6 at a `gemini-pro` agent whose caller has no credit left: the request is
answered with a result, the simulated generation runs, the agent's
`responses` goes from 0 to 2 and a performance bucket is written. -/
theorem geminiPro_without_credits_not_rejected :
    UserCredit.getAvailableCredits ⟨100, 100, 0⟩ < preCheckCost "gemini-pro" ∧
    (∃ r, (processAgentRequest sampleEnv (sampleWorld "gemini-pro" 100 100)
      sampleRequest).response = .ok r) ∧
    (processAgentRequest sampleEnv (sampleWorld "gemini-pro" 100 100)
      sampleRequest).simulatedCalls = 1 ∧
    ((processAgentRequest sampleEnv (sampleWorld "gemini-pro" 100 100)
      sampleRequest).world.agent.map fun a => a.responses) = some 2 ∧
    ((processAgentRequest sampleEnv (sampleWorld "gemini-pro" 100 100)
      sampleRequest).world.performance.map fun p => p.totalResponses) = [1] := by
  refine ⟨by decide, ⟨_, rfl⟩, by decide, by decide!, by decide!⟩

/-- What C6 says does hold for an agent that is not active and for a
Gemini-gated agent whose caller cannot pay: the request is rejected, no
generation path runs, and agent, buckets and `usedCredits` are as before. -/
theorem inactive_or_unpaid_gemini_rejected (env : Env) (w : World) (req : RequestData)
    (query : String) (agent : Agent) (c : UserCredit) (hq : req.query = some query)
    (hne : query.isEmpty = false) (ha : w.agent = some agent) (hc : w.credit = some c)
    (h : agent.status ≠ "active" ∨
      (usesGemini agent = true ∧ c.getAvailableCredits < preCheckCost agent.aiModel)) :
    (∀ r, (processAgentRequest env w req).response ≠ .ok r) ∧
    (processAgentRequest env w req).world = w ∧
    (processAgentRequest env w req).geminiCalls = 0 ∧
    (processAgentRequest env w req).simulatedCalls = 0 := by
  by_cases hs : agent.status = "active"
  · rcases h with h | ⟨hg, hlt⟩
    · exact absurd hs h
    · rw [processAgentRequest_gemini env w req query agent hq hne ha hs hg]
      simp only [hc, Option.getD_some, hlt, if_true, ne_eq, reduceCtorEq, not_false_eq_true,
        implies_true, and_self, and_true, true_and]
      cases w
      simp only at hc
      simp only [hc]
  · unfold processAgentRequest
    have hs2 : (agent.status != "active") = true := by simpa using hs
    simp only [hq, hne, ha, hs2, Bool.false_eq_true, if_false, if_true, ne_eq, reduceCtorEq,
      not_false_eq_true, implies_true, and_self]

/-! ## Pathway prompts -/

/-- The head of the stably sorted list is the first element of the least
order: nothing before it is as small, nothing after it is smaller. -/
theorem insertionSort_head_first_min (l : List Prompt) (hne : l ≠ []) :
    ∃ pre p post, l = pre ++ p :: post ∧ (∀ q ∈ pre, p.order < q.order) ∧
      (∀ q ∈ post, p.order ≤ q.order) ∧ (l.insertionSort orderLE).head? = some p := by
  induction l with
  | nil => exact absurd rfl hne
  | cons a t ih =>
    by_cases ht : t = []
    · subst ht
      exact ⟨[], a, [], rfl, by simp, by simp, rfl⟩
    · obtain ⟨pre, p, post, hsplit, hpre, hpost, hhead⟩ := ih ht
      obtain ⟨rest, hrest⟩ : ∃ rest, t.insertionSort orderLE = p :: rest := by
        cases hs : t.insertionSort orderLE with
        | nil => rw [hs] at hhead; cases hhead
        | cons b rest =>
          rw [hs] at hhead
          simp only [List.head?_cons, Option.some.injEq] at hhead
          exact ⟨rest, by rw [hhead]⟩
      by_cases hle : a.order ≤ p.order
      · refine ⟨[], a, t, rfl, by simp, ?_, ?_⟩
        · intro q hq
          rw [hsplit] at hq
          rcases List.mem_append.mp hq with h | h
          · exact le_of_lt (lt_of_le_of_lt hle (hpre q h))
          · rcases List.mem_cons.mp h with h | h
            · rw [h]; exact hle
            · exact le_trans hle (hpost q h)
        · have : orderLE a p := hle
          simp only [List.insertionSort, hrest, List.orderedInsert, this, if_true,
            List.head?_cons]
      · refine ⟨a :: pre, p, post, by rw [hsplit]; rfl, ?_, hpost, ?_⟩
        · intro q hq
          rcases List.mem_cons.mp hq with h | h
          · rw [h]; exact lt_of_not_le hle
          · exact hpre q h
        · have : ¬ orderLE a p := hle
          simp only [List.insertionSort, hrest, List.orderedInsert, this, if_false,
            List.head?_cons]

/-! ## Concurrent requests -/

/-- The scheduled cost is never negative. -/
theorem deductionCost_nonneg (m : String) : 0 ≤ deductionCost m := by
  unfold deductionCost; split <;> decide

/-- A debit is nothing or the scheduled cost, so never negative. -/
theorem debit_nonneg (f : Flight) : 0 ≤ debit f := by
  unfold debit; split
  · exact deductionCost_nonneg _
  · exact le_refl 0

/-- Replacing one request changes the debited sum by the change of its debit. -/
theorem debitedCost_set (l : List Flight) (i : Nat) (f g : Flight) (h : l[i]? = some f) :
    debitedCost (l.set i g) = debitedCost l - debit f + debit g := by
  induction l generalizing i with
  | nil => simp at h
  | cons a t ih =>
    cases i with
    | zero =>
      simp only [List.getElem?_cons_zero, Option.some.injEq] at h
      subst h
      simp only [debitedCost, List.set_cons_zero, List.map_cons, List.sum_cons]
      omega
    | succ n =>
      simp only [List.getElem?_cons_succ] at h
      have := ih n h
      simp only [debitedCost, List.set_cons_succ, List.map_cons, List.sum_cons] at this ⊢
      omega

/-- One round trip of one request: the total is kept, the stored
`usedCredits` stays within the total, the request's debit does not shrink,
and the bound `b` on the stored and held `usedCredits` moves with the debit. -/
theorem stepFlight_bounds (total b : Int) (c : UserCredit) (f : Flight)
    (ht : c.totalCredits = total) (hu : c.usedCredits ≤ total) (hb : c.usedCredits ≤ b)
    (hdoc : ∀ doc, f.phase = .loaded doc → doc.totalCredits = total ∧ doc.usedCredits ≤ b) :
    (stepFlight c f).1.totalCredits = total ∧ (stepFlight c f).1.usedCredits ≤ total ∧
    debit f ≤ debit (stepFlight c f).2 ∧
    (stepFlight c f).1.usedCredits ≤ b - debit f + debit (stepFlight c f).2 ∧
    ∀ doc, (stepFlight c f).2.phase = .loaded doc →
      doc.totalCredits = total ∧ doc.usedCredits ≤ b - debit f + debit (stepFlight c f).2 := by
  obtain ⟨m, s, ph⟩ := f
  cases ph with
  | start =>
    unfold stepFlight
    by_cases h : c.getAvailableCredits < preCheckCost m
    · simp [h, debit, ht, hu, hb]
    · simp [h, debit, ht, hu, hb]
  | generating =>
    unfold stepFlight
    cases s
    · simp [debit, ht, hu, hb]
    · simp [debit, ht, hu, hb]
  | loaded doc =>
    obtain ⟨hdt, hdb⟩ := hdoc doc rfl
    have hcost := deductionCost_nonneg m
    unfold stepFlight UserCredit.useCredits
    by_cases h : doc.usedCredits + deductionCost m > doc.totalCredits
    · simp [h, debit, ht, hu, hb]
    · simp only [h, if_false, if_true, debit, reduceCtorEq, Phase.finished.injEq,
        Phase.loaded.injEq, sub_zero, false_implies, implies_true, and_true]
      refine ⟨ht, ?_, hcost, ?_⟩ <;> omega
  | finished d =>
    unfold stepFlight
    simp only [ht, hu, le_refl, sub_add_cancel, hb, reduceCtorEq, false_implies, implies_true,
      and_self]

/-- Every round trip keeps the invariant of the concurrent system. -/
theorem stepAt_inv (total base : Int) (s : Shared) (i : Nat) (h : s.Inv total base) :
    (stepAt s i).Inv total base := by
  obtain ⟨ht, hu, hb, hdocs⟩ := h
  unfold stepAt
  cases hf : s.flights[i]? with
  | none => exact ⟨ht, hu, hb, hdocs⟩
  | some f =>
    have hmem : f ∈ s.flights := List.getElem?_mem hf
    obtain ⟨h1, h2, h3, h4, h5⟩ :=
      stepFlight_bounds total (base + debitedCost s.flights) s.credit f ht hu hb (hdocs f hmem)
    have hset := debitedCost_set s.flights i f (stepFlight s.credit f).2 hf
    refine ⟨h1, h2, ?_, ?_⟩
    · simp only [hset]; omega
    · intro g hg doc hdoc
      simp only [hset]
      rcases List.mem_or_eq_of_mem_set hg with hg | hg
      · obtain ⟨e1, e2⟩ := hdocs g hg doc hdoc
        exact ⟨e1, by omega⟩
      · subst hg
        obtain ⟨e1, e2⟩ := h5 doc hdoc
        exact ⟨e1, by omega⟩

/-- Every schedule keeps the invariant of the concurrent system. -/
theorem run_inv (total base : Int) (schedule : List Nat) (s : Shared) (h : s.Inv total base) :
    (run s schedule).Inv total base := by
  induction schedule generalizing s with
  | nil => exact h
  | cons i rest ih => exact ih (stepAt s i) (stepAt_inv total base s i h)

/-- A request served alone adds exactly its debit to `usedCredits`. -/
theorem serveAlone_debit (c : UserCredit) (f : Flight) (hs : f.phase = .start) :
    (serveAlone c f).1.usedCredits = c.usedCredits + debit (serveAlone c f).2 := by
  obtain ⟨m, s, ph⟩ := f
  simp only at hs
  subst hs
  unfold serveAlone
  by_cases h : c.getAvailableCredits < preCheckCost m
  · simp [stepFlight, h, debit]
  · cases s
    · simp [stepFlight, h, debit]
    · by_cases h2 : c.usedCredits + deductionCost m > c.totalCredits
      · simp [stepFlight, h, debit, UserCredit.useCredits, h2]
      · simp [stepFlight, h, debit, UserCredit.useCredits, h2]

/-- A round trip of the request at the end of `served` touches that request
and the record only. -/
theorem stepAt_append (c : UserCredit) (served : List Flight) (f : Flight) (rest : List Flight) :
    stepAt ⟨c, served ++ f :: rest⟩ served.length =
      ⟨(stepFlight c f).1, served ++ (stepFlight c f).2 :: rest⟩ := by
  have hset : ∀ g, (served ++ f :: rest).set served.length g = served ++ g :: rest := by
    intro g
    induction served with
    | nil => rfl
    | cons a t ih => simp only [List.cons_append, List.length_cons, List.set_cons_succ, ih]
  have hget : (served ++ f :: rest)[served.length]? = some f := by
    rw [List.getElem?_append_right (le_refl _)]
    simp
  unfold stepAt
  simp only [hget, hset]

/-- Served one after another, the requests leave `usedCredits` at its start
value plus the sum of the debits saved. -/
theorem run_serial (todo : List Flight) :
    ∀ (served : List Flight) (c : UserCredit), (∀ f ∈ todo, f.phase = .start) →
      (run ⟨c, served ++ todo⟩ (serialFrom served.length todo.length)).credit.usedCredits +
          debitedCost served =
        c.usedCredits +
          debitedCost (run ⟨c, served ++ todo⟩ (serialFrom served.length todo.length)).flights := by
  induction todo with
  | nil =>
    intro served c _
    simp [run, serialFrom]
  | cons f rest ih =>
    intro served c hstart
    have hf : f.phase = .start := hstart f (List.mem_cons_self _ _)
    have hrest : ∀ g ∈ rest, g.phase = .start := fun g hg => hstart g (List.mem_cons_of_mem _ hg)
    have hrun : run ⟨c, served ++ f :: rest⟩ (serialFrom served.length (f :: rest).length) =
        run ⟨(serveAlone c f).1, (served ++ [(serveAlone c f).2]) ++ rest⟩
          (serialFrom (served ++ [(serveAlone c f).2]).length rest.length) := by
      simp only [List.length_cons, serialFrom, run, List.foldl_cons, stepAt_append, serveAlone,
        List.length_append, List.length_singleton, List.append_assoc, List.singleton_append,
        List.length_nil]
    rw [hrun]
    have := ih (served ++ [(serveAlone c f).2]) (serveAlone c f).1 hrest
    have hd := serveAlone_debit c f hf
    have hsplit : debitedCost (served ++ [(serveAlone c f).2]) =
        debitedCost served + debit (serveAlone c f).2 := by
      simp [debitedCost]
    omega

/-- C8 fails as stated: two `whatco-small` requests whose reads both precede
both writes are both debited (sum of costs 2) while the stored `usedCredits`
ends at 1, not 2. -/
theorem concurrent_debit_lost :
    (run ⟨⟨100, 0, 0⟩, twoFlights⟩ [0, 0, 1, 1, 0, 1]).flights.map (fun f => f.phase) =
      [.finished true, .finished true] ∧
    debitedCost (run ⟨⟨100, 0, 0⟩, twoFlights⟩ [0, 0, 1, 1, 0, 1]).flights = 2 ∧
    (run ⟨⟨100, 0, 0⟩, twoFlights⟩ [0, 0, 1, 1, 0, 1]).credit.usedCredits = 1 ∧
    (run ⟨⟨100, 0, 0⟩, twoFlights⟩ [0, 0, 1, 1, 0, 1]).credit.usedCredits ≠
      0 + debitedCost (run ⟨⟨100, 0, 0⟩, twoFlights⟩ [0, 0, 1, 1, 0, 1]).flights := by
  decide

/-- C8 (amended): for requests that start against a record with
`usedCredits <= totalCredits`, under every interleaving of their round trips
the stored `usedCredits` never exceeds `totalCredits` and never exceeds its
start value plus the sum of the costs of the debited requests; when the
requests are served one after another it equals that sum. -/
theorem concurrent_debits_bounded (c : UserCredit) (flights : List Flight)
    (schedule : List Nat) (hstart : ∀ f ∈ flights, f.phase = .start)
    (hc : c.usedCredits ≤ c.totalCredits) :
    (run ⟨c, flights⟩ schedule).credit.totalCredits = c.totalCredits ∧
    (run ⟨c, flights⟩ schedule).credit.usedCredits ≤ c.totalCredits ∧
    (run ⟨c, flights⟩ schedule).credit.usedCredits ≤
      c.usedCredits + debitedCost (run ⟨c, flights⟩ schedule).flights ∧
    (run ⟨c, flights⟩ (serialFrom 0 flights.length)).credit.usedCredits =
      c.usedCredits + debitedCost (run ⟨c, flights⟩ (serialFrom 0 flights.length)).flights := by
  have hinit : Shared.Inv c.totalCredits c.usedCredits ⟨c, flights⟩ := by
    refine ⟨rfl, hc, ?_, ?_⟩
    · have : 0 ≤ debitedCost flights :=
        List.sum_nonneg (fun x hx => by
          obtain ⟨f, _, rfl⟩ := List.mem_map.mp hx
          exact debit_nonneg f)
      simp only; omega
    · intro f hf doc hdoc
      rw [hstart f hf] at hdoc
      cases hdoc
  obtain ⟨h1, h2, h3, _⟩ := run_inv c.totalCredits c.usedCredits schedule ⟨c, flights⟩ hinit
  refine ⟨h1, h2, h3, ?_⟩
  have := run_serial flights [] c hstart
  simp only [List.nil_append, List.length_nil, debitedCost, List.map_nil, List.sum_nil,
    add_zero] at this
  exact this

/-- Witness of `concurrent_debits_bounded` on the interleaving that loses a
debit: the stored `usedCredits` 1 is within the total 100 and within the
debited sum 2. -/
theorem concurrent_debits_bounded_witness :
    (run ⟨⟨100, 0, 0⟩, twoFlights⟩ [0, 0, 1, 1, 0, 1]).credit.totalCredits = 100 ∧
    (run ⟨⟨100, 0, 0⟩, twoFlights⟩ [0, 0, 1, 1, 0, 1]).credit.usedCredits ≤ 100 ∧
    (run ⟨⟨100, 0, 0⟩, twoFlights⟩ [0, 0, 1, 1, 0, 1]).credit.usedCredits ≤
      0 + debitedCost (run ⟨⟨100, 0, 0⟩, twoFlights⟩ [0, 0, 1, 1, 0, 1]).flights ∧
    (run ⟨⟨100, 0, 0⟩, twoFlights⟩ (serialFrom 0 twoFlights.length)).credit.usedCredits =
      0 + debitedCost (run ⟨⟨100, 0, 0⟩, twoFlights⟩ (serialFrom 0 twoFlights.length)).flights :=
  concurrent_debits_bounded ⟨100, 0, 0⟩ twoFlights [0, 0, 1, 1, 0, 1] (by decide) (by decide)

/-! ## Pathway clauses -/

/-- An own key is read as its string. -/
theorem readProperty_own (vars : Variables) (name v : String) (h : vars.lookup name = some v) :
    readProperty vars name = .str v := by
  simp only [readProperty, h]

/-- A name that is neither an own key nor inherited is read as `undefined`. -/
theorem readProperty_absent (vars : Variables) (name : String) (h : vars.lookup name = none)
    (hp : objectPrototypeKeys.contains name = false) : readProperty vars name = .undefined := by
  simp only [readProperty, h, hp, Bool.false_eq_true, if_false]

/-- A name of `Object.prototype` that is not an own key is read as the
inherited member. -/
theorem readProperty_inherited (vars : Variables) (name : String)
    (h : vars.lookup name = none) (hp : objectPrototypeKeys.contains name = true) :
    readProperty vars name = .inherited := by
  simp only [readProperty, h, hp, if_true]

/-- On `undefined` only a `notExists` clause holds. -/
theorem conditionHolds_undefined (vars : Variables) (c : Condition)
    (h : readProperty vars c.varName = .undefined) :
    conditionHolds vars c = .normal (c.operator == "notExists") := by
  obtain ⟨x, op, value⟩ := c
  simp only at h
  by_cases hop : op = "notExists"
  · subst hop
    simp [conditionHolds, h, isFalsy]
  · have hne : (op == "notExists") = false := by simpa using hop
    simp [conditionHolds, h, isFalsy, hne, hop]

/-- On the empty string no clause holds. -/
theorem conditionHolds_empty (vars : Variables) (c : Condition)
    (h : vars.lookup c.varName = some "") : conditionHolds vars c = .normal false := by
  obtain ⟨x, op, value⟩ := c
  simp only at h
  have hread := readProperty_own vars x "" h
  have he : ("" : String).isEmpty = true := rfl
  by_cases hop : op = "notExists"
  · subst hop
    simp [conditionHolds, hread, isFalsy, he]
  · have hne : (op == "notExists") = false := by simpa using hop
    simp [conditionHolds, hread, isFalsy, he, hne, hop]

/-- On an own key with a non-empty value the callback computes the
specification's reading of the clause. -/
theorem conditionHolds_nonEmpty (vars : Variables) (c : Condition) (v : String)
    (h : vars.lookup c.varName = some v) (hv : v ≠ "") :
    conditionHolds vars c = .normal (specClauseSatisfied vars c) := by
  obtain ⟨x, op, value⟩ := c
  simp only at h
  have hread := readProperty_own vars x v h
  have he : v.isEmpty = false := by
    rw [Bool.eq_false_iff]; intro hh; exact hv ((String.isEmpty_iff v).mp hh)
  by_cases h1 : op = "equals"
  · subst h1; simp [conditionHolds, specClauseSatisfied, hread, h, isFalsy, he]
  by_cases h2 : op = "contains"
  · subst h2; simp [conditionHolds, specClauseSatisfied, hread, h, isFalsy, he]
  by_cases h3 : op = "greaterThan"
  · subst h3; simp [conditionHolds, specClauseSatisfied, hread, h, isFalsy, he, parseFloatValue]
  by_cases h4 : op = "lessThan"
  · subst h4; simp [conditionHolds, specClauseSatisfied, hread, h, isFalsy, he, parseFloatValue]
  by_cases h5 : op = "exists"
  · subst h5; simp [conditionHolds, specClauseSatisfied, hread, h, isFalsy, he]
  by_cases h6 : op = "notExists"
  · subst h6; simp [conditionHolds, specClauseSatisfied, hread, h, isFalsy, he]
  simp [conditionHolds, specClauseSatisfied, hread, h, isFalsy, he, h1, h2, h3, h4, h5, h6]

/-- On an inherited member `contains` throws, `exists` holds, and every other
operator fails. -/
theorem conditionHolds_inherited (vars : Variables) (c : Condition)
    (h : readProperty vars c.varName = .inherited) :
    conditionHolds vars c =
      if c.operator == "contains" then .typeError else .normal (c.operator == "exists") := by
  obtain ⟨x, op, value⟩ := c
  simp only at h
  by_cases h1 : op = "equals"
  · subst h1; simp [conditionHolds, h, isFalsy]
  by_cases h2 : op = "contains"
  · subst h2; simp [conditionHolds, h, isFalsy]
  by_cases h3 : op = "greaterThan"
  · subst h3; simp [conditionHolds, h, isFalsy, parseFloatValue, JSNum.gt, JSNum.lt]
  by_cases h4 : op = "lessThan"
  · subst h4; simp [conditionHolds, h, isFalsy, parseFloatValue, JSNum.lt]
  by_cases h5 : op = "exists"
  · subst h5; simp [conditionHolds, h, isFalsy]
  by_cases h6 : op = "notExists"
  · subst h6; simp [conditionHolds, h, isFalsy]
  simp [conditionHolds, h, isFalsy, h1, h2, h3, h4, h5, h6]

/-- When the clause reads an own key or a name no object inherits, the
callback returns, and it returns true only if the clause is satisfied in the
specification's reading. -/
theorem conditionHolds_sound (vars : Variables) (c : Condition)
    (h : readsOwnOrAbsent vars c = true) :
    ∃ b, conditionHolds vars c = .normal b ∧ (b = true → specClauseSatisfied vars c = true) := by
  cases hl : vars.lookup c.varName with
  | none =>
    have hp : objectPrototypeKeys.contains c.varName = false := by
      simpa [readsOwnOrAbsent, hl] using h
    refine ⟨_, conditionHolds_undefined vars c (readProperty_absent vars _ hl hp), ?_⟩
    intro hb
    simp only [specClauseSatisfied, hl, hb]
  | some v =>
    by_cases hv : v = ""
    · subst hv
      exact ⟨false, conditionHolds_empty vars c hl, fun hb => by cases hb⟩
    · exact ⟨_, conditionHolds_nonEmpty vars c v hl hv, fun hb => hb⟩

/-- When moreover the value read is not the empty string, the callback
computes the specification's reading. -/
theorem conditionHolds_eq_spec (vars : Variables) (c : Condition)
    (h : readsOwnOrAbsent vars c = true) (hne : readsNonEmpty vars c = true) :
    conditionHolds vars c = .normal (specClauseSatisfied vars c) := by
  cases hl : vars.lookup c.varName with
  | none =>
    have hp : objectPrototypeKeys.contains c.varName = false := by
      simpa [readsOwnOrAbsent, hl] using h
    rw [conditionHolds_undefined vars c (readProperty_absent vars _ hl hp)]
    simp only [specClauseSatisfied, hl]
  | some v =>
    have hv : v ≠ "" := by
      intro hv; subst hv
      simp [readsNonEmpty, hl] at hne
    exact conditionHolds_nonEmpty vars c v hl hv

/-- `every` over clauses each of which returns `f` returns their
conjunction. -/
theorem everyCondition_of_normal (vars : Variables) (f : Condition → Bool)
    (cs : List Condition) (h : ∀ c ∈ cs, conditionHolds vars c = .normal (f c)) :
    everyCondition vars cs = .normal (cs.all f) := by
  induction cs with
  | nil => rfl
  | cons c rest ih =>
    have hc := h c (List.mem_cons_self _ _)
    have hrest := ih (fun x hx => h x (List.mem_cons_of_mem _ hx))
    simp only [everyCondition, hc, List.all_cons]
    cases hf : f c
    · simp
    · simpa using hrest

/-- The filter callback on a variant whose clauses each return `f`. -/
theorem promptMatches_of_normal (vars : Variables) (f : Condition → Bool) (p : Prompt)
    (h : ∀ c ∈ p.conditions, conditionHolds vars c = .normal (f c)) :
    promptMatches vars p = .normal (p.conditions.all f) := by
  unfold promptMatches
  cases hc : p.conditions with
  | nil => rfl
  | cons c rest =>
    rw [hc] at h
    simp only [List.length_cons, Nat.add_one_ne_zero, beq_iff_eq, if_false]
    exact everyCondition_of_normal vars f (c :: rest) h

/-- `filter` over variants on each of which the callback returns `g` keeps
those with `g` true. -/
theorem filterPrompts_of_normal (vars : Variables) (g : Prompt → Bool) (prompts : List Prompt)
    (h : ∀ p ∈ prompts, promptMatches vars p = .normal (g p)) :
    filterPrompts vars prompts = .normal (prompts.filter g) := by
  induction prompts with
  | nil => rfl
  | cons p rest ih =>
    have hp := h p (List.mem_cons_self _ _)
    have hrest := ih (fun x hx => h x (List.mem_cons_of_mem _ hx))
    simp only [filterPrompts, hp, hrest, List.filter_cons]

/-- A variant whose clauses read own keys or names no object inherits is
kept by the filter callback only if it is fully satisfied in the
specification's reading, and the callback returns. -/
theorem promptMatches_sound (vars : Variables) (p : Prompt)
    (h : ∀ c ∈ p.conditions, readsOwnOrAbsent vars c = true) :
    ∃ b, promptMatches vars p = .normal b ∧ (b = true → specFullyMatches vars p = true) := by
  have hex : ∀ c ∈ p.conditions, ∃ b, conditionHolds vars c = .normal b ∧
      (b = true → specClauseSatisfied vars c = true) :=
    fun c hc => conditionHolds_sound vars c (h c hc)
  let f : Condition → Bool := fun c =>
    match conditionHolds vars c with
    | .normal b => b
    | .typeError => false
  have hf : ∀ c ∈ p.conditions, conditionHolds vars c = .normal (f c) := by
    intro c hc
    obtain ⟨b, hb, _⟩ := hex c hc
    simp only [f, hb]
  refine ⟨_, promptMatches_of_normal vars f p hf, ?_⟩
  intro hall
  simp only [specFullyMatches, List.all_eq_true] at hall ⊢
  intro c hc
  obtain ⟨b, hb, himp⟩ := hex c hc
  apply himp
  have := hall c hc
  simpa [f, hb] using this

/-- The result of `generatePrompt` on two or more variants, from what the
filter kept: the head of the kept variants sorted by order, or the first
declared variant when none was kept. -/
theorem generatePrompt_of_filter (prompts kept : List Prompt) (vars : Variables)
    (h2 : 2 ≤ prompts.length) (hk : filterPrompts vars prompts = .normal kept) :
    generatePrompt prompts vars =
      match (kept.insertionSort orderLE).head? with
      | some p => .normal p.content
      | none => .normal (firstPromptContent prompts) := by
  have hlen : prompts.length > 1 := h2
  simp only [generatePrompt, hlen, if_true, matchingPrompts, hk]
  cases kept.insertionSort orderLE <;> rfl

/-- With fewer than two variants `generatePrompt` returns the first one. -/
theorem generatePrompt_of_short (prompts : List Prompt) (vars : Variables)
    (h : prompts.length ≤ 1) : generatePrompt prompts vars = .normal (firstPromptContent prompts) := by
  have hlen : ¬ prompts.length > 1 := by omega
  simp only [generatePrompt, hlen, if_false]

/-- A variant without conditions is kept by the filter callback. -/
theorem promptMatches_default (vars : Variables) (p : Prompt) (h : p.conditions = []) :
    promptMatches vars p = .normal true := by
  simp only [promptMatches, h, List.length_nil, beq_self_eq_true, if_true]

/-- C9 fails as stated: in the empty context both variants are fully
satisfied in the specification's reading (`constructor` is not a variable of
the context), the first has the smaller order, and the content of the second
is returned. -/
theorem generatePrompt_skips_inherited_name :
    List.lookup "constructor" ([] : Variables) = none ∧
    inheritedNotExistsPrompts.filter (specFullyMatches []) = inheritedNotExistsPrompts ∧
    inheritedNotExistsPrompts.map (fun p => (p.order, p.content)) =
      [(1, "fresh prompt"), (2, "default prompt")] ∧
    generatePrompt inheritedNotExistsPrompts [] = .normal "default prompt" := by
  decide

/-- C9 (amended): with two or more variants whose clauses read own keys of
the context with non-empty values or names that are absent and not
inherited, of which at least one is fully satisfied in the specification's
reading, `generatePrompt` returns the content of a fully satisfied variant
`p` such that no fully satisfied variant declared before it has an order as
small and none declared after it has a smaller one. -/
theorem generatePrompt_smallest_order (prompts : List Prompt) (context : Variables)
    (h2 : 2 ≤ prompts.length)
    (hread : ∀ q ∈ prompts, ∀ c ∈ q.conditions,
      readsOwnOrAbsent context c = true ∧ readsNonEmpty context c = true)
    (hm : prompts.filter (specFullyMatches context) ≠ []) :
    ∃ pre p post, prompts.filter (specFullyMatches context) = pre ++ p :: post ∧
      (∀ q ∈ pre, p.order < q.order) ∧ (∀ q ∈ post, p.order ≤ q.order) ∧
      p ∈ prompts ∧ specFullyMatches context p = true ∧
      generatePrompt prompts context = .normal p.content := by
  have hmatch : ∀ q ∈ prompts,
      promptMatches context q = .normal (specFullyMatches context q) := fun q hq =>
    promptMatches_of_normal context (specClauseSatisfied context) q
      (fun c hc => conditionHolds_eq_spec context c (hread q hq c hc).1 (hread q hq c hc).2)
  have hfilter := filterPrompts_of_normal context (specFullyMatches context) prompts hmatch
  obtain ⟨pre, p, post, hsplit, hpre, hpost, hhead⟩ :=
    insertionSort_head_first_min (prompts.filter (specFullyMatches context)) hm
  have hp : p ∈ prompts.filter (specFullyMatches context) := by
    rw [hsplit]; exact List.mem_append_right _ (List.mem_cons_self _ _)
  refine ⟨pre, p, post, hsplit, hpre, hpost, (List.mem_filter.mp hp).1,
    (List.mem_filter.mp hp).2, ?_⟩
  rw [generatePrompt_of_filter prompts _ context h2 hfilter, hhead]

/-- Witness of `generatePrompt_smallest_order` on the specification's
example: both variants are satisfied and the one of order 1, declared
second, is returned. -/
theorem generatePrompt_smallest_order_witness :
    ∃ pre p post,
      samplePrompts.filter (specFullyMatches [("age", "25"), ("country", "US")]) =
        pre ++ p :: post ∧
      (∀ q ∈ pre, p.order < q.order) ∧ (∀ q ∈ post, p.order ≤ q.order) ∧
      p ∈ samplePrompts ∧ specFullyMatches [("age", "25"), ("country", "US")] p = true ∧
      generatePrompt samplePrompts [("age", "25"), ("country", "US")] = .normal p.content :=
  generatePrompt_smallest_order samplePrompts [("age", "25"), ("country", "US")]
    (by decide) (by decide) (by decide!)

/-- The guard on falsy values at the level of `generatePrompt`: in a context
whose `x` is the empty string, the variant asking that `x` equal the empty
string is fully satisfied in the specification's reading and has the smaller
order, and the content of the variant without conditions is returned. -/
theorem generatePrompt_skips_empty_string :
    emptyStringPrompts.filter (specFullyMatches [("x", "")]) = emptyStringPrompts ∧
    emptyStringPrompts.map (fun p => (p.order, p.content)) =
      [(1, "blank prompt"), (2, "default prompt")] ∧
    generatePrompt emptyStringPrompts [("x", "")] = .normal "default prompt" := by
  decide

/-- C10 fails as stated: the empty context has no variable `constructor`, so
it does not satisfy the `exists` clause of the first variant, and the second
variant is the only one without conditions; the content of the first is
returned. -/
theorem generatePrompt_inherited_beats_default :
    List.lookup "constructor" ([] : Variables) = none ∧
    inheritedExistsPrompts.map (fun p => p.conditions.map (specClauseSatisfied [])) =
      [[false], []] ∧
    inheritedExistsPrompts.map (fun p => p.content) = ["built prompt", "default prompt"] ∧
    generatePrompt inheritedExistsPrompts [] = .normal "built prompt" := by
  decide

/-- C10 (amended): when one variant has no conditions and every other
variant has a clause the context does not satisfy and reads only own keys of
the context or names that are not inherited, `generatePrompt` returns the
content of the variant without conditions, wherever it is declared. -/
theorem generatePrompt_default (before after : List Prompt) (d : Prompt) (context : Variables)
    (hd : d.conditions = [])
    (hothers : ∀ q ∈ before ++ after,
      (∃ c ∈ q.conditions, specClauseSatisfied context c = false) ∧
      ∀ c ∈ q.conditions, readsOwnOrAbsent context c = true) :
    generatePrompt (before ++ d :: after) context = .normal d.content := by
  have hfail : ∀ q ∈ before ++ after, promptMatches context q = .normal false := by
    intro q hq
    obtain ⟨⟨c, hc, hcf⟩, hown⟩ := hothers q hq
    obtain ⟨b, hb, himp⟩ := promptMatches_sound context q hown
    cases b with
    | false => exact hb
    | true =>
      have hall := himp rfl
      simp only [specFullyMatches, List.all_eq_true] at hall
      rw [hall c hc] at hcf
      cases hcf
  let g : Prompt → Bool := fun p => decide (p.conditions = [])
  have hg : ∀ q ∈ before ++ d :: after, promptMatches context q = .normal (g q) := by
    intro q hq
    by_cases hqd : q.conditions = []
    · simp only [g, hqd, decide_True]
      exact promptMatches_default context q hqd
    · simp only [g, hqd, decide_False]
      rcases List.mem_append.mp hq with h | h
      · exact hfail q (List.mem_append_left _ h)
      · rcases List.mem_cons.mp h with h | h
        · rw [h] at hqd; exact absurd hd hqd
        · exact hfail q (List.mem_append_right _ h)
  have hne : ∀ q ∈ before ++ after, g q = false := by
    intro q hq
    obtain ⟨⟨c, hc, _⟩, _⟩ := hothers q hq
    simp only [g, decide_eq_false_iff_not]
    intro hnil
    rw [hnil] at hc
    cases hc
  have hkept : (before ++ d :: after).filter g = [d] := by
    have hb : before.filter g = [] :=
      List.filter_eq_nil_iff.mpr (fun q hq => by
        rw [hne q (List.mem_append_left _ hq)]; exact Bool.false_ne_true)
    have ha : after.filter g = [] :=
      List.filter_eq_nil_iff.mpr (fun q hq => by
        rw [hne q (List.mem_append_right _ hq)]; exact Bool.false_ne_true)
    have hgd : g d = true := by simp only [g, hd, decide_True]
    rw [List.filter_append, List.filter_cons, hb, ha, hgd]
    rfl
  have hfilter := filterPrompts_of_normal context g (before ++ d :: after) hg
  rw [hkept] at hfilter
  by_cases hlen : 2 ≤ (before ++ d :: after).length
  · rw [generatePrompt_of_filter _ _ context hlen hfilter]
    rfl
  · have hshort : (before ++ d :: after).length ≤ 1 := by omega
    rw [generatePrompt_of_short _ context hshort]
    have hb : before = [] := by
      cases before with
      | nil => rfl
      | cons a t => simp at hshort
    subst hb
    rfl

/-- Witness of `generatePrompt_default`: the default variant declared last,
after the two variants of the example, for a minor from France. -/
theorem generatePrompt_default_witness :
    generatePrompt (samplePrompts ++ defaultPrompt :: []) [("age", "12"), ("country", "FR")] =
      .normal "default prompt" :=
  generatePrompt_default samplePrompts [] defaultPrompt [("age", "12"), ("country", "FR")] rfl
    (by decide!)

/-- C11 fails as stated: the empty context satisfies no variant in the
specification's reading, yet a variant asking for `toString` is matched and
its content returned instead of the first variant's, and a `contains` clause
on `valueOf` makes `generatePrompt` throw. -/
theorem generatePrompt_fallback_misses_inherited :
    inheritedFallbackPrompts.filter (specFullyMatches []) = [] ∧
    generatePrompt inheritedFallbackPrompts [] = .normal "second prompt" ∧
    firstPromptContent inheritedFallbackPrompts = "first prompt" ∧
    inheritedContainsPrompts.filter (specFullyMatches []) = [] ∧
    generatePrompt inheritedContainsPrompts [] = .typeError := by
  decide

/-- C11 (amended): when the clauses read only own keys of the context or
names that are not inherited, and no variant is fully satisfied,
`generatePrompt` returns normally with the content of the first declared
variant. -/
theorem generatePrompt_fallback (p : Prompt) (rest : List Prompt) (context : Variables)
    (hread : ∀ q ∈ p :: rest, ∀ c ∈ q.conditions, readsOwnOrAbsent context c = true)
    (h : ∀ q ∈ p :: rest, specFullyMatches context q = false) :
    generatePrompt (p :: rest) context = .normal p.content := by
  have hfail : ∀ q ∈ p :: rest, promptMatches context q = .normal ((fun _ => false) q) := by
    intro q hq
    obtain ⟨b, hb, himp⟩ := promptMatches_sound context q (hread q hq)
    cases b with
    | false => exact hb
    | true =>
      have := himp rfl
      rw [h q hq] at this
      cases this
  have hfilter := filterPrompts_of_normal context (fun _ => false) (p :: rest) hfail
  have hnil : (p :: rest).filter (fun _ => false) = [] :=
    List.filter_eq_nil_iff.mpr (fun _ _ => Bool.false_ne_true)
  rw [hnil] at hfilter
  by_cases hlen : 2 ≤ (p :: rest).length
  · rw [generatePrompt_of_filter _ _ context hlen hfilter]
    rfl
  · rw [generatePrompt_of_short _ context (by omega)]
    rfl

/-- Witness of `generatePrompt_fallback`: neither variant of the example is
satisfied by a minor from France, and the first one is returned. -/
theorem generatePrompt_fallback_witness :
    generatePrompt samplePrompts [("age", "12"), ("country", "FR")] = .normal "adult prompt" :=
  generatePrompt_fallback _ _ [("age", "12"), ("country", "FR")] (by decide) (by decide!)

/-- An `exists` clause holds exactly when the variable has a non-empty value
or is an inherited name that the context does not define. -/
theorem exists_clause_iff (vars : Variables) (x value : String) :
    conditionHolds vars ⟨x, "exists", value⟩ = .normal true ↔
      (∃ v, vars.lookup x = some v ∧ v ≠ "") ∨
      (vars.lookup x = none ∧ objectPrototypeKeys.contains x = true) := by
  cases hl : vars.lookup x with
  | none =>
    cases hp : objectPrototypeKeys.contains x with
    | false =>
      rw [conditionHolds_undefined vars ⟨x, "exists", value⟩ (readProperty_absent vars x hl hp)]
      simp only [show (("exists" : String) == "notExists") = false by decide]
      simp
    | true =>
      rw [conditionHolds_inherited vars ⟨x, "exists", value⟩
        (readProperty_inherited vars x hl hp)]
      simp only [show (("exists" : String) == "contains") = false by decide,
        show (("exists" : String) == "exists") = true by decide]
      simp
  | some v =>
    by_cases hv : v = ""
    · subst hv
      rw [conditionHolds_empty vars ⟨x, "exists", value⟩ hl]
      simp
    · rw [conditionHolds_nonEmpty vars ⟨x, "exists", value⟩ v hl hv]
      simp [specClauseSatisfied, hl, hv]

/-- An `equals` clause holds exactly when the variable has a non-empty value
equal to the clause value. -/
theorem equals_clause_iff (vars : Variables) (x value : String) :
    conditionHolds vars ⟨x, "equals", value⟩ = .normal true ↔
      ∃ v, vars.lookup x = some v ∧ v ≠ "" ∧ v = value := by
  cases hl : vars.lookup x with
  | none =>
    cases hp : objectPrototypeKeys.contains x with
    | false =>
      rw [conditionHolds_undefined vars ⟨x, "equals", value⟩ (readProperty_absent vars x hl hp)]
      simp only [show (("equals" : String) == "notExists") = false by decide]
      simp
    | true =>
      rw [conditionHolds_inherited vars ⟨x, "equals", value⟩
        (readProperty_inherited vars x hl hp)]
      simp only [show (("equals" : String) == "contains") = false by decide,
        show (("equals" : String) == "exists") = false by decide]
      simp
  | some v =>
    by_cases hv : v = ""
    · subst hv
      rw [conditionHolds_empty vars ⟨x, "equals", value⟩ hl]
      simp
    · rw [conditionHolds_nonEmpty vars ⟨x, "equals", value⟩ v hl hv]
      simp [specClauseSatisfied, hl, hv]

/-- C12 at a variable present with the empty string: the `exists` clause is
not satisfied, and neither is the `notExists` clause on the same variable. -/
theorem exists_clause_fails_on_empty_string :
    List.lookup "x" [("x", "")] = some "" ∧
    conditionHolds [("x", "")] ⟨"x", "exists", ""⟩ = .normal false ∧
    conditionHolds [("x", "")] ⟨"x", "notExists", ""⟩ = .normal false ∧
    conditionHolds [("x", "a")] ⟨"x", "exists", ""⟩ = .normal true := by
  decide

/-- C13 fails as stated: the empty context has no variable `constructor`,
yet the `notExists` clause on it is not satisfied and the `exists` clause
is. -/
theorem notExists_fails_on_inherited_name :
    List.lookup "constructor" ([] : Variables) = none ∧
    conditionHolds [] ⟨"constructor", "notExists", ""⟩ = .normal false ∧
    conditionHolds [] ⟨"constructor", "exists", ""⟩ = .normal true := by
  decide

/-- C13 (amended): a `notExists` clause holds exactly when the variable is
neither a key of the context nor an inherited name.  On such a variable every
clause returns, only `notExists` holds, and the five other operators fail.
On an inherited name that the context does not define `exists` holds,
`contains` throws, and `notExists`, `equals`, `greaterThan` and `lessThan`
fail. -/
theorem notExists_clause_iff (vars : Variables) (x value : String) :
    (conditionHolds vars ⟨x, "notExists", value⟩ = .normal true ↔
      vars.lookup x = none ∧ objectPrototypeKeys.contains x = false) ∧
    (vars.lookup x = none → objectPrototypeKeys.contains x = false →
      (∀ op : String, conditionHolds vars ⟨x, op, value⟩ = .normal (op == "notExists")) ∧
      ∀ op ∈ ["equals", "contains", "greaterThan", "lessThan", "exists"],
        conditionHolds vars ⟨x, op, value⟩ = .normal false) ∧
    (vars.lookup x = none → objectPrototypeKeys.contains x = true →
      conditionHolds vars ⟨x, "exists", value⟩ = .normal true ∧
      conditionHolds vars ⟨x, "contains", value⟩ = .typeError ∧
      ∀ op ∈ ["notExists", "equals", "greaterThan", "lessThan"],
        conditionHolds vars ⟨x, op, value⟩ = .normal false) := by
  refine ⟨?_, ?_, ?_⟩
  · cases hl : vars.lookup x with
    | none =>
      cases hp : objectPrototypeKeys.contains x with
      | false =>
        rw [conditionHolds_undefined vars ⟨x, "notExists", value⟩
          (readProperty_absent vars x hl hp)]
        simp
      | true =>
        rw [conditionHolds_inherited vars ⟨x, "notExists", value⟩
          (readProperty_inherited vars x hl hp)]
        simp only [show (("notExists" : String) == "contains") = false by decide,
          show (("notExists" : String) == "exists") = false by decide]
        simp
    | some v =>
      by_cases hv : v = ""
      · subst hv
        rw [conditionHolds_empty vars ⟨x, "notExists", value⟩ hl]
        simp
      · rw [conditionHolds_nonEmpty vars ⟨x, "notExists", value⟩ v hl hv]
        simp [specClauseSatisfied, hl]
  · intro hl hp
    have hall : ∀ op : String,
        conditionHolds vars ⟨x, op, value⟩ = .normal (op == "notExists") := fun op =>
      conditionHolds_undefined vars ⟨x, op, value⟩ (readProperty_absent vars x hl hp)
    refine ⟨hall, ?_⟩
    intro op hop
    rw [hall op]
    revert op
    decide
  · intro hl hp
    have hall : ∀ op : String, conditionHolds vars ⟨x, op, value⟩ =
        if op == "contains" then .typeError else .normal (op == "exists") := fun op =>
      conditionHolds_inherited vars ⟨x, op, value⟩ (readProperty_inherited vars x hl hp)
    refine ⟨?_, ?_, ?_⟩
    · rw [hall]; rfl
    · rw [hall]; rfl
    · intro op hop
      rw [hall op]
      revert op
      decide

/-- C14 at a variable and a clause value that are both the empty string: the
`equals` clause is not satisfied although the two strings are equal. -/
theorem equals_clause_fails_on_empty_strings :
    List.lookup "x" [("x", "")] = some "" ∧
    conditionHolds [("x", "")] ⟨"x", "equals", ""⟩ = .normal false ∧
    conditionHolds [("x", "a")] ⟨"x", "equals", "a"⟩ = .normal true := by
  decide

/-- Scaling both decimals to the smaller exponent compares the rationals
they denote. -/
theorem fin_lt_iff (m1 e1 m2 e2 : Int) :
    m1 * 10 ^ (e1 - min e1 e2).toNat < m2 * 10 ^ (e2 - min e1 e2).toNat ↔
      (m1 : ℚ) * (10 : ℚ) ^ e1 < (m2 : ℚ) * (10 : ℚ) ^ e2 := by
  have h1 : e1 = min e1 e2 + ((e1 - min e1 e2).toNat : Int) := by
    have : 0 ≤ e1 - min e1 e2 := by have := min_le_left e1 e2; omega
    rw [Int.toNat_of_nonneg this]; ring
  have h2 : e2 = min e1 e2 + ((e2 - min e1 e2).toNat : Int) := by
    have : 0 ≤ e2 - min e1 e2 := by have := min_le_right e1 e2; omega
    rw [Int.toNat_of_nonneg this]; ring
  have hpos : (0 : ℚ) < (10 : ℚ) ^ (min e1 e2) := zpow_pos (by norm_num) _
  have hten : (10 : ℚ) ≠ 0 := by norm_num
  have q1 : (m1 : ℚ) * (10 : ℚ) ^ e1 =
      ((m1 * 10 ^ (e1 - min e1 e2).toNat : Int) : ℚ) * (10 : ℚ) ^ (min e1 e2) := by
    conv_lhs => rw [h1]
    rw [zpow_add₀ hten, zpow_natCast]
    push_cast; ring
  have q2 : (m2 : ℚ) * (10 : ℚ) ^ e2 =
      ((m2 * 10 ^ (e2 - min e1 e2).toNat : Int) : ℚ) * (10 : ℚ) ^ (min e1 e2) := by
    conv_lhs => rw [h2]
    rw [zpow_add₀ hten, zpow_natCast]
    push_cast; ring
  rw [q1, q2, mul_lt_mul_right hpos, Int.cast_lt]

/-- The comparison `<` of the model is the mathematical order of the
parsed numbers. -/
theorem JSNum.lt_iff_Less (a b : JSNum) : JSNum.lt a b = true ↔ JSNum.Less a b := by
  cases a with
  | nan => cases b <;> simp [JSNum.lt, JSNum.Less]
  | inf n1 => cases b <;> simp [JSNum.lt, JSNum.Less]
  | fin m1 e1 =>
    cases b with
    | nan => simp [JSNum.lt, JSNum.Less]
    | inf n2 => simp [JSNum.lt, JSNum.Less]
    | fin m2 e2 =>
      simp only [JSNum.lt, JSNum.Less, decide_eq_true_eq]
      exact fin_lt_iff m1 e1 m2 e2

/-- Only numbers are ordered: `NaN` is on neither side. -/
theorem JSNum.Less_ne_nan (a b : JSNum) (h : JSNum.Less a b) : a ≠ .nan ∧ b ≠ .nan := by
  cases a <;> cases b <;> simp [JSNum.Less] at h ⊢

/-- With fuel at least `n` the halving loop reaches the leading bit of `n`. -/
theorem log2Fuel_spec (fuel n : Nat) (hn : 0 < n) (hf : n ≤ fuel) :
    2 ^ log2Fuel fuel n ≤ n ∧ n < 2 ^ (log2Fuel fuel n + 1) := by
  induction fuel generalizing n with
  | zero => omega
  | succ fuel ih =>
    by_cases h2 : n ≥ 2
    · have hhalf := ih (n / 2) (Nat.div_pos h2 (by decide)) (by omega)
      simp only [log2Fuel, h2, if_true]
      constructor
      · rw [pow_succ]
        have := hhalf.1
        omega
      · rw [pow_succ]
        have := hhalf.2
        omega
    · have h1 : n = 1 := by omega
      subst h1
      simp [log2Fuel]

/-- The number `floorLog2 n` is the position of the leading bit of a positive
`n`: the fuel `n` is enough. -/
theorem floorLog2_spec (n : Nat) (hn : 0 < n) :
    2 ^ floorLog2 n ≤ n ∧ n < 2 ^ (floorLog2 n + 1) :=
  log2Fuel_spec n n hn (le_refl n)

/-- The empty string does not parse as a number. -/
theorem parseFloat_empty : parseFloat "" = .nan := by decide

/-- A comparison clause returns the comparison of the two parsed sides when
the variable has a value, and fails when it has none. -/
theorem comparison_clause_eval (vars : Variables) (x value : String) :
    conditionHolds vars ⟨x, "greaterThan", value⟩ = .normal
      (match vars.lookup x with
       | some v => JSNum.lt (parseFloat value) (parseFloat v)
       | none => false) ∧
    conditionHolds vars ⟨x, "lessThan", value⟩ = .normal
      (match vars.lookup x with
       | some v => JSNum.lt (parseFloat v) (parseFloat value)
       | none => false) := by
  cases hl : vars.lookup x with
  | none =>
    cases hp : objectPrototypeKeys.contains x with
    | false =>
      have hread := readProperty_absent vars x hl hp
      exact ⟨conditionHolds_undefined vars ⟨x, "greaterThan", value⟩ hread,
        conditionHolds_undefined vars ⟨x, "lessThan", value⟩ hread⟩
    | true =>
      have hread := readProperty_inherited vars x hl hp
      exact ⟨conditionHolds_inherited vars ⟨x, "greaterThan", value⟩ hread,
        conditionHolds_inherited vars ⟨x, "lessThan", value⟩ hread⟩
  | some v =>
    by_cases hv : v = ""
    · subst hv
      rw [conditionHolds_empty vars ⟨x, "greaterThan", value⟩ hl,
        conditionHolds_empty vars ⟨x, "lessThan", value⟩ hl]
      simp only [parseFloat_empty]
      cases parseFloat value <;> exact ⟨rfl, rfl⟩
    · rw [conditionHolds_nonEmpty vars ⟨x, "greaterThan", value⟩ v hl hv,
        conditionHolds_nonEmpty vars ⟨x, "lessThan", value⟩ v hl hv]
      simp [specClauseSatisfied, hl, JSNum.gt]

/-- C15: a `greaterThan` (`lessThan`) clause always returns, and it holds
exactly when the variable is present, its value and the clause value both
parse as numbers, and the parsed context value is above (below) the parsed
clause value; so it fails when the variable is absent or its value does not
parse.  Both sides are parsed as `parseFloat` does, to the nearest double:
leading white space and trailing text are skipped, digits beyond the
precision of a double are rounded away, large values become infinite and
tiny ones zero. -/
theorem comparison_clause_iff (vars : Variables) (x value : String) :
    (conditionHolds vars ⟨x, "greaterThan", value⟩ = .normal true ↔
      ∃ v, vars.lookup x = some v ∧ parseFloat v ≠ .nan ∧ parseFloat value ≠ .nan ∧
        JSNum.Less (parseFloat value) (parseFloat v)) ∧
    (conditionHolds vars ⟨x, "lessThan", value⟩ = .normal true ↔
      ∃ v, vars.lookup x = some v ∧ parseFloat v ≠ .nan ∧ parseFloat value ≠ .nan ∧
        JSNum.Less (parseFloat v) (parseFloat value)) ∧
    (∃ g l, conditionHolds vars ⟨x, "greaterThan", value⟩ = .normal g ∧
      conditionHolds vars ⟨x, "lessThan", value⟩ = .normal l) ∧
    (vars.lookup x = none →
      conditionHolds vars ⟨x, "greaterThan", value⟩ = .normal false ∧
      conditionHolds vars ⟨x, "lessThan", value⟩ = .normal false) ∧
    (∀ v, vars.lookup x = some v → parseFloat v = .nan →
      conditionHolds vars ⟨x, "greaterThan", value⟩ = .normal false ∧
      conditionHolds vars ⟨x, "lessThan", value⟩ = .normal false) ∧
    (parseFloat "25" = .fin 25000000000000000000000000000000000000000000000000 (-48) ∧
      parseFloat "  -1.5e3xyz" = .fin (-1500000000000000000000000000000000000000000000) (-42) ∧
      parseFloat "0.1" = .fin 10000000000000000555111512312578270211815834045410156250 (-56) ∧
      parseFloat "9007199254740993" = .fin 9007199254740992 0 ∧
      parseFloat "9007199254740995" = .fin 9007199254740996 0 ∧
      parseFloat "1e400" = .inf false ∧ parseFloat "-Infinity" = .inf true ∧
      JSNum.lt (parseFloat "0") (parseFloat "2e-324") = false ∧
      JSNum.lt (parseFloat "0") (parseFloat "3e-324") = true ∧
      parseFloat "3e-324" = parseFloat "5e-324" ∧
      parseFloat "abc" = .nan ∧ parseFloat "e5" = .nan ∧ parseFloat "0x10" = .fin 0 0) ∧
    (conditionHolds [("age", "25")] ⟨"age", "greaterThan", "18"⟩ = .normal true ∧
      conditionHolds [("age", "9")] ⟨"age", "greaterThan", "10"⟩ = .normal false ∧
      conditionHolds [("age", "18")] ⟨"age", "greaterThan", "18"⟩ = .normal false ∧
      conditionHolds [("age", "18")] ⟨"age", "lessThan", "18.5"⟩ = .normal true ∧
      conditionHolds [("n", "9007199254740993")]
        ⟨"n", "greaterThan", "9007199254740992"⟩ = .normal false ∧
      conditionHolds [("n", "1e400")] ⟨"n", "greaterThan", "1e399"⟩ = .normal false ∧
      conditionHolds [("n", "0.1")] ⟨"n", "lessThan", "0.10000000000000001"⟩ = .normal false ∧
      conditionHolds [("n", "0.1")] ⟨"n", "lessThan", "0.1000000000000001"⟩ = .normal true ∧
      conditionHolds [("n", "abc")] ⟨"n", "lessThan", "1"⟩ = .normal false ∧
      conditionHolds [("n", "1")] ⟨"n", "lessThan", "abc"⟩ = .normal false ∧
      conditionHolds [] ⟨"constructor", "greaterThan", "1"⟩ = .normal false) := by
  have heval := comparison_clause_eval vars x value
  have hgt : conditionHolds vars ⟨x, "greaterThan", value⟩ = .normal true ↔
      ∃ v, vars.lookup x = some v ∧ parseFloat v ≠ .nan ∧ parseFloat value ≠ .nan ∧
        JSNum.Less (parseFloat value) (parseFloat v) := by
    rw [heval.1]
    cases hl : vars.lookup x with
    | none => simp
    | some v =>
      simp only [Completion.normal.injEq, JSNum.lt_iff_Less]
      constructor
      · intro h
        exact ⟨v, rfl, (JSNum.Less_ne_nan _ _ h).2, (JSNum.Less_ne_nan _ _ h).1, h⟩
      · rintro ⟨w, hw, _, _, h⟩
        cases hw; exact h
  have hlt : conditionHolds vars ⟨x, "lessThan", value⟩ = .normal true ↔
      ∃ v, vars.lookup x = some v ∧ parseFloat v ≠ .nan ∧ parseFloat value ≠ .nan ∧
        JSNum.Less (parseFloat v) (parseFloat value) := by
    rw [heval.2]
    cases hl : vars.lookup x with
    | none => simp
    | some v =>
      simp only [Completion.normal.injEq, JSNum.lt_iff_Less]
      constructor
      · intro h
        exact ⟨v, rfl, (JSNum.Less_ne_nan _ _ h).1, (JSNum.Less_ne_nan _ _ h).2, h⟩
      · rintro ⟨w, hw, _, _, h⟩
        cases hw; exact h
  refine ⟨hgt, hlt, ⟨_, _, heval.1, heval.2⟩, ?_, ?_, by decide!, by decide!⟩
  · intro hl
    rw [heval.1, heval.2, hl]
    exact ⟨rfl, rfl⟩
  · intro v hl hnan
    rw [heval.1, heval.2, hl]
    simp only [hnan]
    cases parseFloat value <;> exact ⟨rfl, rfl⟩

/-! ## Knowledge augmentation -/

/-- Joining a list of strings that starts with `a` is `a` followed by the
join of the rest. -/
theorem join_cons (a : String) (l : List String) : String.join (a :: l) = a ++ String.join l := by
  have h : ∀ (l : List String) (acc : String),
      l.foldl (fun r s => r ++ s) acc = acc ++ l.foldl (fun r s => r ++ s) "" := by
    intro l
    induction l with
    | nil => intro acc; simp
    | cons b t ih =>
      intro acc
      simp only [List.foldl_cons, String.empty_append]
      rw [ih (acc ++ b), ih b, String.append_assoc]
  simp only [String.join, List.foldl_cons, String.empty_append]
  exact h l a

/-- The `forEach` loop appends the blocks of the entries in order, numbered
from `index + 1`. -/
theorem appendEntries_eq (entries : List KnowledgeEntry) :
    ∀ (acc : String) (index : Nat), appendEntries acc index entries =
      acc ++ String.join ((entries.enumFrom index).map fun ie => entryBlock ie.1 ie.2) := by
  induction entries with
  | nil => intro acc index; simp [appendEntries, String.join]
  | cons e rest ih =>
    intro acc index
    simp only [appendEntries, List.enumFrom_cons, List.map_cons, join_cons]
    rw [ih, String.append_assoc]

/-- A text that starts with a non-empty text is not empty. -/
theorem append_isEmpty_false (a b : String) (ha : 0 < a.length) : (a ++ b).isEmpty = false := by
  rw [Bool.eq_false_iff]
  intro h
  have := (String.isEmpty_iff _).mp h
  have hl := congrArg String.length this
  simp only [String.length_append] at hl
  have : ("" : String).length = 0 := rfl
  omega

/-- C16: without knowledge entries the system prompt is the base prompt; with
`N >= 1` entries it is the base prompt, the header `KNOWLEDGE BASE
INFORMATION:`, the `N` enumerated blocks of the entries in stored order, and
the fixed instruction. -/
theorem enhancedSystemPrompt_spec (base : String) (entries : List KnowledgeEntry) :
    enhancedSystemPrompt base .noReference = base ∧
    enhancedSystemPrompt base .failed = base ∧
    enhancedSystemPrompt base .missing = base ∧
    enhancedSystemPrompt base (.found []) = base ∧
    (entries ≠ [] →
      enhancedSystemPrompt base (.found entries) =
        base ++ ("\n\n" ++ ("\n\nKNOWLEDGE BASE INFORMATION:\n" ++
          String.join (enumeratedBlocks entries))) ++ knowledgeInstruction) ∧
    (enumeratedBlocks entries).length = entries.length ∧
    (∀ i : Nat, (enumeratedBlocks entries)[i]? = entries[i]?.map fun e =>
      "[" ++ toString (i + 1) ++ "] " ++ e.title ++ ":\n" ++ e.content ++ "\n\n") := by
  refine ⟨rfl, rfl, rfl, rfl, ?_, ?_, ?_⟩
  · intro hne
    have hlen : entries.length > 0 := List.length_pos.mpr hne
    have hcontent : knowledgeBaseContent (.found entries) =
        "\n\nKNOWLEDGE BASE INFORMATION:\n" ++ String.join (enumeratedBlocks entries) := by
      simp only [knowledgeBaseContent, hlen, if_true, appendEntries_eq, enumeratedBlocks,
        List.enum, entryBlock]
    unfold enhancedSystemPrompt
    rw [hcontent]
    have := append_isEmpty_false "\n\nKNOWLEDGE BASE INFORMATION:\n"
      (String.join (enumeratedBlocks entries)) (by decide)
    simp only [this, Bool.not_false, if_true]
  · simp [enumeratedBlocks]
  · intro i
    simp only [enumeratedBlocks, List.getElem?_map, List.getElem?_enum, Option.map_map]
    rfl

/-! ## Generation dispatch -/

/-- C17: `mapToGeminiModel` sends `whatco-small` to `gemini-2.0-flash` and
every other input, `whatco-large` and `gemini-pro` among them, to
`gemini-1.5-pro`, which is a different id. -/
theorem mapToGeminiModel_total :
    mapToGeminiModel "whatco-small" = "gemini-2.0-flash" ∧
    mapToGeminiModel "whatco-large" = "gemini-1.5-pro" ∧
    mapToGeminiModel "gemini-pro" = "gemini-1.5-pro" ∧
    (∀ m : String, m ≠ "whatco-small" → mapToGeminiModel m = "gemini-1.5-pro") ∧
    mapToGeminiModel "whatco-large" = mapToGeminiModel "gemini-pro" ∧
    mapToGeminiModel "whatco-large" ≠ mapToGeminiModel "whatco-small" := by
  refine ⟨by decide, by decide, by decide, ?_, by decide, by decide⟩
  intro m hm
  unfold mapToGeminiModel
  have : (m == "whatco-small") = false := by simpa using hm
  simp only [this, Bool.false_eq_true, if_false, ite_self]

/-- C18 at a history that carries a `system` turn: for a Gemini 2.0 model and
a non-empty system prompt the request holds that `system` turn, followed by
the user turn with the system prompt, the separator and the query. -/
theorem system_turn_from_history :
    isGemini20 "gemini-2.0-flash" = true ∧ "sys" ≠ "" ∧
    (buildPayload "q" "sys" "gemini-2.0-flash" 1 1000 40 [⟨"system", "h"⟩]).contents =
      [⟨"system", "h"⟩, ⟨"user", "sys\n\nUser Query: q"⟩] ∧
    (⟨"system", "h"⟩ : Turn) ∈
      (buildPayload "q" "sys" "gemini-2.0-flash" 1 1000 40 [⟨"system", "h"⟩]).contents := by
  decide

/-- A non-empty string passes the test `if (systemPrompt)`. -/
theorem not_isEmpty_of_ne (s : String) (h : s ≠ "") : (!s.isEmpty) = true := by
  cases hs : s.isEmpty with
  | false => rfl
  | true => exact absurd ((String.isEmpty_iff s).mp hs) h

/-- The turns of a request: with a non-empty system prompt, a Gemini 2.0
request is the history followed by one user turn whose text is the system
prompt, the separator and the query, so it has a `system` turn only if the
history has one; any other request is a `system` turn with the system prompt,
the history, and a user turn with the query.  With an empty system prompt
both are the history followed by a user turn with the query. -/
theorem buildPayload_turns (prompt systemPrompt model : String) (temperature : ℚ)
    (maxTokens topK : Nat) (history : List Message) :
    (isGemini20 model = true → systemPrompt ≠ "" →
      (buildPayload prompt systemPrompt model temperature maxTokens topK history).contents =
        formatHistory history ++
          [⟨"user", systemPrompt ++ "\n\nUser Query: " ++ prompt⟩] ∧
      ((∀ m ∈ history, m.role ≠ "system") →
        ∀ t ∈ (buildPayload prompt systemPrompt model temperature maxTokens topK
          history).contents, t.role ≠ "system")) ∧
    (isGemini20 model = false → systemPrompt ≠ "" →
      (buildPayload prompt systemPrompt model temperature maxTokens topK history).contents =
        ⟨"system", systemPrompt⟩ :: (formatHistory history ++ [⟨"user", prompt⟩])) ∧
    (systemPrompt = "" →
      (buildPayload prompt systemPrompt model temperature maxTokens topK history).contents =
        formatHistory history ++ [⟨"user", prompt⟩]) := by
  refine ⟨?_, ?_, ?_⟩
  · intro hg hs
    have hcontents :
        (buildPayload prompt systemPrompt model temperature maxTokens topK history).contents =
          formatHistory history ++
            [⟨"user", systemPrompt ++ "\n\nUser Query: " ++ prompt⟩] := by
      simp only [buildPayload, hg, if_true, not_isEmpty_of_ne systemPrompt hs]
    refine ⟨hcontents, ?_⟩
    intro hhist t ht
    rw [hcontents] at ht
    rcases List.mem_append.mp ht with h | h
    · obtain ⟨m, hm, rfl⟩ := List.mem_map.mp h
      exact hhist m hm
    · rw [List.mem_singleton.mp h]
      exact (show "user" ≠ "system" by decide)
  · intro hg hs
    simp only [buildPayload, hg, Bool.false_eq_true, if_false, not_isEmpty_of_ne systemPrompt hs,
      if_true, List.cons_append, List.nil_append, List.append_assoc]
  · intro hs
    subst hs
    have he : ("" : String).isEmpty = true := rfl
    by_cases hg : isGemini20 model = true
    · simp [buildPayload, hg, he]
    · simp [buildPayload, hg, he]

/-- C19: the turns of the request are an optional `system` turn, then the
history turn by turn with role and text kept, then one user turn; their
number is the length of the history plus one, plus one for a `system` turn. -/
theorem buildPayload_history (prompt systemPrompt model : String) (temperature : ℚ)
    (maxTokens topK : Nat) (history : List Message) :
    ∃ (lead : List Turn) (final : Turn),
      (buildPayload prompt systemPrompt model temperature maxTokens topK history).contents =
        lead ++ formatHistory history ++ [final] ∧
      (lead = [] ∨ lead = [⟨"system", systemPrompt⟩]) ∧ final.role = "user" ∧
      (formatHistory history).map (fun t => (t.role, t.text)) =
        history.map (fun m => (m.role, m.content)) ∧
      (buildPayload prompt systemPrompt model temperature maxTokens topK history).contents.length =
        history.length + 1 + lead.length := by
  have hmap : (formatHistory history).map (fun t => (t.role, t.text)) =
      history.map (fun m => (m.role, m.content)) := by
    simp [formatHistory]
  have hlen : (formatHistory history).length = history.length := by simp [formatHistory]
  by_cases hg : isGemini20 model = true
  · refine ⟨[], ⟨"user", if (!systemPrompt.isEmpty) = true then
        systemPrompt ++ "\n\nUser Query: " ++ prompt else prompt⟩, ?_, Or.inl rfl, rfl, hmap, ?_⟩
    · simp only [buildPayload, hg, if_true, List.nil_append]
    · simp only [buildPayload, hg, if_true, List.length_append, hlen, List.length_singleton,
        List.length_nil, add_zero]
  · by_cases hs : (!systemPrompt.isEmpty) = true
    · refine ⟨[⟨"system", systemPrompt⟩], ⟨"user", prompt⟩, ?_, Or.inr rfl, rfl, hmap, ?_⟩
      · simp only [buildPayload, hg, Bool.false_eq_true, if_false, hs, if_true]
      · simp only [buildPayload, hg, Bool.false_eq_true, if_false, hs, if_true,
          List.length_append, hlen, List.length_singleton]
        omega
    · refine ⟨[], ⟨"user", prompt⟩, ?_, Or.inl rfl, rfl, hmap, ?_⟩
      · simp only [buildPayload, hg, Bool.false_eq_true, if_false, hs]
      · simp only [buildPayload, hg, Bool.false_eq_true, if_false, hs, List.length_append,
          hlen, List.length_singleton, List.length_nil, add_zero]
        omega

/-- C20 fails as stated: the backend reports 3 prompt and 4 candidate tokens;
with no total reported `tokenUsage` is 0, with a total of 10 reported it is
10, and it is 7 in neither case. -/
theorem tokenUsage_not_the_sum :
    (geminiProcessAgentRequest backendWithoutTotal .noReference defaultParams 1
      (sampleAgent "whatco-small") sampleRequest).success = true ∧
    (geminiProcessAgentRequest backendWithoutTotal .noReference defaultParams 1
      (sampleAgent "whatco-small") sampleRequest).tokenUsage = some 0 ∧
    (geminiProcessAgentRequest backendWithLargerTotal .noReference defaultParams 1
      (sampleAgent "whatco-small") sampleRequest).tokenUsage = some 10 ∧
    (generateText backendWithoutTotal "hi" "p" "gemini-2.0-flash" 1 1000 40 []).usage =
      some { promptTokens := 3, candidateTokens := 4, totalTokens := 0 } := by
  decide

/-- C20 (amended): for every successful backend response the normalized
result's `tokenUsage` is the total token count the backend reports, 0 when it
reports none; the prompt and candidate counts are kept apart in `usage`, each
0 when unreported, and are not summed. -/
theorem tokenUsage_is_reported_total (backend : String → Payload → BackendOutcome)
    (lookup : KnowledgeLookup) (params : GenerationParams) (elapsed : ℚ) (agent : Agent)
    (requestData : RequestData) (data : BackendData)
    (h : backend (mapToGeminiModel agent.aiModel)
      (buildPayload (requestData.query.getD "") (enhancedSystemPrompt agent.promptSystem lookup)
        (mapToGeminiModel agent.aiModel) params.temperature params.maxTokens params.topK
        (requestData.history.getD [])) = .response (some data)) :
    (geminiProcessAgentRequest backend lookup params elapsed agent requestData).success = true ∧
    (geminiProcessAgentRequest backend lookup params elapsed agent requestData).tokenUsage =
      some ((data.usageMetadata.bind fun u => u.totalTokenCount).getD 0) ∧
    (generateText backend (requestData.query.getD "")
      (enhancedSystemPrompt agent.promptSystem lookup) (mapToGeminiModel agent.aiModel)
      params.temperature params.maxTokens params.topK (requestData.history.getD [])).usage =
      some { promptTokens := (data.usageMetadata.bind fun u => u.promptTokenCount).getD 0
             candidateTokens := (data.usageMetadata.bind fun u => u.candidatesTokenCount).getD 0
             totalTokens := (data.usageMetadata.bind fun u => u.totalTokenCount).getD 0 } := by
  simp only [geminiProcessAgentRequest, generateText, h, if_true, Option.map_some', orZero,
    and_self]

/-- Witness of `tokenUsage_is_reported_total`: a reported total of 10 is the
`tokenUsage`. -/
theorem tokenUsage_is_reported_total_witness :
    (geminiProcessAgentRequest backendWithLargerTotal .noReference defaultParams 1
      (sampleAgent "whatco-small") sampleRequest).tokenUsage = some 10 :=
  (tokenUsage_is_reported_total backendWithLargerTotal .noReference defaultParams 1
    (sampleAgent "whatco-small") sampleRequest _ rfl).2.1

/-! ## Failure handling -/

/-- C21: whatever the backend call does, `generateText` and the service's
`processAgentRequest` return a result: a thrown error gives `success = false`
with the error payload, or the error message when there is no payload; an
answer without data gives `success = false`; an answer with data gives
`success = true`. -/
theorem generation_never_raises (backend : String → Payload → BackendOutcome)
    (lookup : KnowledgeLookup) (params : GenerationParams) (elapsed : ℚ) (agent : Agent)
    (requestData : RequestData) (prompt systemPrompt model : String) (temperature : ℚ)
    (maxTokens topK : Nat) (history : List Message) :
    (∀ message, backend model
        (buildPayload prompt systemPrompt model temperature maxTokens topK history) =
          .thrown none message →
      (generateText backend prompt systemPrompt model temperature maxTokens topK history).success =
        false ∧
      (generateText backend prompt systemPrompt model temperature maxTokens topK history).error =
        some message) ∧
    (∀ payloadError message, backend model
        (buildPayload prompt systemPrompt model temperature maxTokens topK history) =
          .thrown (some payloadError) message →
      (generateText backend prompt systemPrompt model temperature maxTokens topK history).success =
        false ∧
      (generateText backend prompt systemPrompt model temperature maxTokens topK history).error =
        some payloadError) ∧
    ((generateText backend prompt systemPrompt model temperature maxTokens topK history).success =
        true ∨
      ((generateText backend prompt systemPrompt model temperature maxTokens topK
          history).success = false ∧
        (generateText backend prompt systemPrompt model temperature maxTokens topK
          history).error ≠ none)) ∧
    ((geminiProcessAgentRequest backend lookup params elapsed agent requestData).success =
        (generateText backend (requestData.query.getD "")
          (enhancedSystemPrompt agent.promptSystem lookup) (mapToGeminiModel agent.aiModel)
          params.temperature params.maxTokens params.topK (requestData.history.getD [])).success) ∧
    ((geminiProcessAgentRequest backend lookup params elapsed agent requestData).success = false →
      (geminiProcessAgentRequest backend lookup params elapsed agent requestData).error =
        (generateText backend (requestData.query.getD "")
          (enhancedSystemPrompt agent.promptSystem lookup) (mapToGeminiModel agent.aiModel)
          params.temperature params.maxTokens params.topK (requestData.history.getD [])).error) := by
  refine ⟨?_, ?_, ?_, ?_, ?_⟩
  · intro message h
    simp only [generateText, h, Option.getD_none, and_self]
  · intro payloadError message h
    simp only [generateText, h, Option.getD_some, and_self]
  · unfold generateText
    split <;> simp
  · unfold geminiProcessAgentRequest
    dsimp only
    split <;> simp_all
  · unfold geminiProcessAgentRequest
    dsimp only
    split <;> simp_all

/-- The store's answer to an activity write does not reach the tail of the
request: answer, agent, credit record and buckets are the same. -/
theorem finishRequest_activity_independent (env : Env) (accepts : Bool) (w : World)
    (agent : Agent) (query : String) (result : GenResult) (g s : Nat) :
    (finishRequest { env with activityStoreOk := accepts } w agent query result g s).response =
      (finishRequest env w agent query result g s).response ∧
    (finishRequest { env with activityStoreOk := accepts } w agent query result g s).world.agent =
      (finishRequest env w agent query result g s).world.agent ∧
    (finishRequest { env with activityStoreOk := accepts } w agent query result g s).world.credit =
      (finishRequest env w agent query result g s).world.credit ∧
    (finishRequest { env with activityStoreOk := accepts } w agent query result g s).world.performance =
      (finishRequest env w agent query result g s).world.performance :=
  ⟨rfl, rfl, rfl, rfl⟩

/-- C26: `logAgentActivity` returns whether the store accepts the write or
not, a rejected write leaves the log as it was, and the answer of
`processAgentRequest`, the agent counters, the credit record and the buckets
are the same in both cases. -/
theorem activity_failure_is_swallowed (env : Env) (accepts : Bool) (w : World)
    (req : RequestData) (activities : List AgentActivity) (a : AgentActivity) :
    logAgentActivity { env with activityStoreOk := false } activities a = activities ∧
    logAgentActivity { env with activityStoreOk := true } activities a = activities ++ [a] ∧
    (processAgentRequest { env with activityStoreOk := accepts } w req).response =
      (processAgentRequest env w req).response ∧
    (processAgentRequest { env with activityStoreOk := accepts } w req).world.agent =
      (processAgentRequest env w req).world.agent ∧
    (processAgentRequest { env with activityStoreOk := accepts } w req).world.credit =
      (processAgentRequest env w req).world.credit ∧
    (processAgentRequest { env with activityStoreOk := accepts } w req).world.performance =
      (processAgentRequest env w req).world.performance := by
  refine ⟨rfl, rfl, ?_⟩
  unfold processAgentRequest
  split
  · exact ⟨rfl, rfl, rfl, rfl⟩
  · split
    · exact ⟨rfl, rfl, rfl, rfl⟩
    · split
      · exact ⟨rfl, rfl, rfl, rfl⟩
      · split
        · exact ⟨rfl, rfl, rfl, rfl⟩
        · split
          · dsimp only
            split
            · exact ⟨rfl, rfl, rfl, rfl⟩
            · exact ⟨rfl, rfl, rfl, rfl⟩
          · exact ⟨rfl, rfl, rfl, rfl⟩

/-! ## Agent status -/

/-- Toggling from `active` or `inactive` stays within the two. -/
theorem toggleTimes_inactive (n : Nat) :
    toggleTimes n "inactive" = "active" ∨ toggleTimes n "inactive" = "inactive" := by
  induction n with
  | zero => exact Or.inr rfl
  | succ k ih =>
    rcases ih with h | h
    · right; simp only [toggleTimes, h]; decide
    · left; simp only [toggleTimes, h]; decide

/-- C28: an agent is created `inactive`; a toggle takes `active` to
`inactive` and every other status to `active`, which on the three statuses
of the schema is one of the allowed transitions; toggling a new agent any
number of times leaves it `active` or `inactive`. -/
theorem toggle_transitions (now : Nat) (name promptSystem : String) (aiModel : Option String)
    (env : Env) (agent : Agent) (activities : List AgentActivity) (n : Nat) :
    (createAgent now name aiModel promptSystem).status = "inactive" ∧
    toggleStatus "active" = "inactive" ∧
    (∀ s : String, s ≠ "active" → toggleStatus s = "active") ∧
    (∀ s ∈ ["active", "inactive", "paused"], (s, toggleStatus s) ∈ allowedToggles) ∧
    (toggleAgentStatus env (some agent) true activities).2.1 =
      some { agent with status := toggleStatus agent.status } ∧
    (toggleTimes n (createAgent now name aiModel promptSystem).status = "active" ∨
      toggleTimes n (createAgent now name aiModel promptSystem).status = "inactive") := by
  refine ⟨rfl, by decide, ?_, by decide, rfl, toggleTimes_inactive n⟩
  intro s hs
  unfold toggleStatus
  have : (s == "active") = false := by simpa using hs
  simp only [this, Bool.false_eq_true, if_false]

/-! ## Counters written by a request -/

/-- The simulated generation updates the agent's counter and accuracy once,
with the outcome it returns. -/
theorem Agent.processRequest_agent (agent : Agent) (env : Env) (elapsed : ℚ)
    (requestData : RequestData) :
    (agent.processRequest env elapsed requestData).2 =
      { agent with
        responses :=
          (rollingStep (agent.responses, agent.accuracy)
            (agent.processRequest env elapsed requestData).1.success).1
        lastActive := some env.now
        accuracy :=
          (rollingStep (agent.responses, agent.accuracy)
            (agent.processRequest env elapsed requestData).1.success).2 } := by
  unfold Agent.processRequest rollingStep
  dsimp only
  by_cases hl : agent.aiModel = "whatco-large"
  · by_cases h : (5 : ℚ) / 100 < env.randomSuccess <;> simp [hl, h]
  · by_cases h : (15 : ℚ) / 100 < env.randomSuccess <;> simp [hl, h]

/-- The metrics `processAgentRequest` records for a result, with the accuracy
it has just written on the agent. -/
theorem finishRequest_world (env : Env) (w : World) (agent : Agent) (query : String)
    (result : GenResult) (g s : Nat) :
    (finishRequest env w agent query result g s).world.agent =
      some { agent with
        lastActive := some env.now
        responses := (rollingStep (agent.responses, agent.accuracy) result.success).1
        accuracy := (rollingStep (agent.responses, agent.accuracy) result.success).2 } ∧
    (finishRequest env w agent query result g s).world.performance =
      recordAgentPerformance env.today w.performance agent.id
        { totalResponses := some 1
          successfulResponses := some (if result.success then 1 else 0)
          failedResponses := some (if result.success then 0 else 1)
          responseTime := some env.responseTime
          accuracy := some (rollingStep (agent.responses, agent.accuracy) result.success).2
          tokenUsage := some (result.tokenUsage.getD 0) } :=
  ⟨rfl, rfl⟩

/-- What a request that is answered with a result `r` writes: on a
Gemini-gated agent one counter and accuracy update, on any other agent two
(the simulated generation's and the controller's), and one bucket event
carrying the accuracy written last. -/
theorem processAgentRequest_ok_world (env : Env) (w : World) (req : RequestData)
    (agent : Agent) (r : GenResult) (ha : w.agent = some agent)
    (hr : (processAgentRequest env w req).response = .ok r) :
    ∃ stats : Int × ℚ,
      stats = (if usesGemini agent then
          rollingStep (agent.responses, agent.accuracy) r.success
        else
          rollingStep (rollingStep (agent.responses, agent.accuracy) r.success) r.success) ∧
      (processAgentRequest env w req).world.agent =
        some { agent with lastActive := some env.now, responses := stats.1
                          accuracy := stats.2 } ∧
      (processAgentRequest env w req).world.performance =
        recordAgentPerformance env.today w.performance agent.id
          { totalResponses := some 1
            successfulResponses := some (if r.success then 1 else 0)
            failedResponses := some (if r.success then 0 else 1)
            responseTime := some env.responseTime
            accuracy := some stats.2
            tokenUsage := some (r.tokenUsage.getD 0) } := by
  refine ⟨_, rfl, ?_⟩
  revert hr
  unfold processAgentRequest
  split
  · intro hr; cases hr
  · split
    · intro hr; cases hr
    · split
      · rename_i h; rw [ha] at h; cases h
      · rename_i agent' hagent
        rw [ha] at hagent
        cases hagent
        split
        · intro hr; cases hr
        · split
          · rename_i _ s _ _ _ _ _
            dsimp only
            split
            · intro hr; cases hr
            · intro hr
              simp only [finishRequest, Response.ok.injEq] at hr
              subst hr
              refine ⟨rfl, ?_⟩
              rw [(finishRequest_world env _ agent s _ 1 0).2]
              congr 1
              split <;> rfl
          · rename_i _ s _ _ _ _ hg
            intro hr
            simp only [finishRequest, Response.ok.injEq] at hr
            subst hr
            dsimp only
            have hp := Agent.processRequest_agent agent env env.responseTime
              { query := some s, history := req.history }
            obtain ⟨hA, hP⟩ := finishRequest_world env w
              (agent.processRequest env env.responseTime
                { query := some s, history := req.history }).2 s
              (agent.processRequest env env.responseTime
                { query := some s, history := req.history }).1 0 1
            rw [hA, hP, hp]
            exact ⟨rfl, rfl⟩

/-! ## Rolling accuracy -/

/-- One response keeps the accuracy the percentage of successes: if the
accuracy times the counter is 100 times the successes so far, it is so
after the update. -/
theorem rollingStep_ratio (n : Int) (a : ℚ) (k : ℚ) (s : Bool) (hn : 0 ≤ n)
    (h : a * (n : ℚ) = 100 * k) :
    (rollingStep (n, a) s).1 = n + 1 ∧
    (rollingStep (n, a) s).2 * ((n + 1 : Int) : ℚ) = 100 * (k + if s then 1 else 0) := by
  refine ⟨rfl, ?_⟩
  simp only [rollingStep, updateAccuracy]
  by_cases h1 : n + 1 = 1
  · have hn0 : n = 0 := by omega
    subst hn0
    have hk : k = 0 := by
      have : (100 : ℚ) * k = 0 := by rw [← h]; simp
      linarith
    subst hk
    cases s <;> simp
  · have hpos : (0 : ℚ) < ((n + 1 : Int) : ℚ) := by
      have : (0 : Int) < n + 1 := by omega
      exact_mod_cast this
    simp only [h1, if_false]
    rw [div_mul_cancel₀ _ (ne_of_gt hpos)]
    push_cast
    cases s <;> simp <;> linarith

/-- After any responses the counter has grown by their number and the
accuracy times the counter is 100 times the successes. -/
theorem rollingAfter_ratio (outcomes : List Bool) :
    ∀ (n : Int) (a k : ℚ), 0 ≤ n → a * (n : ℚ) = 100 * k →
      (rollingAfter (n, a) outcomes).1 = n + outcomes.length ∧
      (rollingAfter (n, a) outcomes).2 * ((rollingAfter (n, a) outcomes).1 : ℚ) =
        100 * (k + successCount outcomes) := by
  induction outcomes with
  | nil =>
    intro n a k _ h
    simp [rollingAfter, successCount, h]
  | cons s rest ih =>
    intro n a k hn h
    obtain ⟨h1, h2⟩ := rollingStep_ratio n a k s hn h
    have hstep : rollingStep (n, a) s = (n + 1, (rollingStep (n, a) s).2) := rfl
    have := ih (n + 1) (rollingStep (n, a) s).2 (k + if s then 1 else 0) (by omega) h2
    simp only [rollingAfter, List.foldl_cons] at this ⊢
    rw [hstep]
    obtain ⟨e1, e2⟩ := this
    refine ⟨by rw [e1]; simp only [List.length_cons]; push_cast; ring, ?_⟩
    rw [e2]
    cases s
    · simp [successCount, List.count_cons]
    · simp [successCount, List.count_cons]; ring

/-- C23: for a fresh agent (`responses = 0`) and `n >= 1` responses of which
`k` succeeded, the counter is `n` and the accuracy is `100 * k / n`; the
controller writes exactly this update on the agent; success, fail, success
gives 100, 50 and 200/3. -/
theorem rolling_accuracy_is_success_ratio (accuracy0 : ℚ) (outcomes : List Bool) (env : Env)
    (w : World) (agent : Agent) (query : String) (result : GenResult) (g s : Nat) :
    (rollingAfter (0, accuracy0) outcomes).1 = outcomes.length ∧
    (outcomes ≠ [] →
      (rollingAfter (0, accuracy0) outcomes).2 =
        100 * (successCount outcomes : ℚ) / (outcomes.length : ℚ)) ∧
    (finishRequest env w agent query result g s).world.agent =
      some { agent with
        lastActive := some env.now
        responses := (rollingStep (agent.responses, agent.accuracy) result.success).1
        accuracy := (rollingStep (agent.responses, agent.accuracy) result.success).2 } ∧
    (rollingAfter (0, 0) [true]).2 = 100 ∧ (rollingAfter (0, 0) [true, false]).2 = 50 ∧
    (rollingAfter (0, 0) [true, false, true]).2 = 200 / 3 := by
  obtain ⟨h1, h2⟩ := rollingAfter_ratio outcomes 0 accuracy0 0 (le_refl 0) (by simp)
  have hlen : (rollingAfter (0, accuracy0) outcomes).1 = outcomes.length := by
    rw [h1]; simp
  refine ⟨hlen, ?_, rfl, ?_, ?_, ?_⟩
  · intro hne
    have hpos : (0 : ℚ) < (outcomes.length : ℚ) := by
      have : 0 < outcomes.length := List.length_pos.mpr hne
      exact_mod_cast this
    rw [hlen] at h2
    rw [eq_div_iff (ne_of_gt hpos)]
    simpa using h2
  · norm_num [rollingAfter, rollingStep, updateAccuracy]
  · norm_num [rollingAfter, rollingStep, updateAccuracy]
  · norm_num [rollingAfter, rollingStep, updateAccuracy]

/-- One response keeps an accuracy between 0 and 100 there. -/
theorem rollingStep_bounds (n : Int) (a : ℚ) (s : Bool) (hn : 0 ≤ n) (h0 : 0 ≤ a)
    (h100 : a ≤ 100) :
    0 ≤ (rollingStep (n, a) s).1 ∧ 0 ≤ (rollingStep (n, a) s).2 ∧
    (rollingStep (n, a) s).2 ≤ 100 := by
  refine ⟨by simp only [rollingStep]; omega, ?_⟩
  simp only [rollingStep, updateAccuracy]
  by_cases h1 : n + 1 = 1
  · simp only [h1, if_true]
    cases s <;> norm_num
  · have hn1 : (1 : ℚ) ≤ (n : ℚ) := by
      have : (1 : Int) ≤ n := by omega
      exact_mod_cast this
    have hpos : (0 : ℚ) < ((n + 1 : Int) : ℚ) := by push_cast; linarith
    simp only [h1, if_false]
    have hx : (0 : ℚ) ≤ (if s = true then (100 : ℚ) else 0) ∧
        (if s = true then (100 : ℚ) else 0) ≤ 100 := by cases s <;> norm_num
    have hsub : (((n + 1 : Int) : ℚ) - 1) = (n : ℚ) := by push_cast; ring
    rw [hsub]
    constructor
    · apply div_nonneg
      · have := mul_nonneg h0 (le_trans zero_le_one hn1)
        linarith [hx.1]
      · exact le_of_lt hpos
    · rw [div_le_iff₀ hpos]
      push_cast
      have : a * (n : ℚ) ≤ 100 * (n : ℚ) :=
        mul_le_mul_of_nonneg_right h100 (le_trans zero_le_one hn1)
      linarith [hx.2]

/-! ## Performance buckets -/

/-- What `applyMetrics` does to each field: the four counters grow by their
own delta (by nothing when the metric is absent), the accuracy is replaced
when supplied, the mean is recomputed when a response time is supplied, and
agent and date stay. -/
theorem applyMetrics_fields (p : AgentPerformance) (m : Metrics) :
    (applyMetrics p m).agentId = p.agentId ∧ (applyMetrics p m).date = p.date ∧
    (applyMetrics p m).totalResponses = p.totalResponses + m.totalResponses.getD 0 ∧
    (applyMetrics p m).successfulResponses =
      p.successfulResponses + m.successfulResponses.getD 0 ∧
    (applyMetrics p m).failedResponses = p.failedResponses + m.failedResponses.getD 0 ∧
    (applyMetrics p m).tokenUsage = p.tokenUsage + m.tokenUsage.getD 0 ∧
    (applyMetrics p m).accuracy = m.accuracy.getD p.accuracy ∧
    (applyMetrics p m).averageResponseTime =
      match m.responseTime with
      | some rt =>
        (p.averageResponseTime * (((p.totalResponses + m.totalResponses.getD 0 : Int) : ℚ) - 1)
          + rt) / ((p.totalResponses + m.totalResponses.getD 0 : Int) : ℚ)
      | none => p.averageResponseTime := by
  obtain ⟨t, s, f, rt, a, tok⟩ := m
  cases t <;> cases s <;> cases f <;> cases rt <;> cases a <;> cases tok <;>
    simp [applyMetrics]

/-- The bucket of the day is still the bucket of the day after the metrics
are applied. -/
theorem isTodaysBucket_applyMetrics (today : Nat) (agentId : String) (p : AgentPerformance)
    (m : Metrics) :
    isTodaysBucket today agentId (applyMetrics p m) = isTodaysBucket today agentId p := by
  obtain ⟨h1, h2, _⟩ := applyMetrics_fields p m
  simp only [isTodaysBucket, h1, h2]

/-- A bucket created for the day is found as the bucket of the day. -/
theorem isTodaysBucket_fresh (today : Nat) (agentId : String) :
    isTodaysBucket today agentId (freshBucket today agentId) = true := by
  simp [isTodaysBucket, freshBucket]

/-- After saving, the bucket of the day is the saved one. -/
theorem todaysBucket_saveBucket (today : Nat) (agentId : String) (updated : AgentPerformance)
    (h : isTodaysBucket today agentId updated = true) (buckets : List AgentPerformance) :
    todaysBucket today agentId (saveBucket today agentId buckets updated) = some updated := by
  induction buckets with
  | nil => simp [todaysBucket, saveBucket, h]
  | cons p rest ih =>
    by_cases hp : isTodaysBucket today agentId p = true
    · simp [todaysBucket, saveBucket, hp, h]
    · simp only [Bool.not_eq_true] at hp
      simp only [todaysBucket] at ih
      simp [todaysBucket, saveBucket, hp, ih]

/-- Saving replaces the bucket of the day in place, or adds the new bucket
at the end when the day had none; every other bucket stays. -/
theorem saveBucket_shape (today : Nat) (agentId : String) (updated : AgentPerformance)
    (buckets : List AgentPerformance) :
    (todaysBucket today agentId buckets = none ∧
      saveBucket today agentId buckets updated = buckets ++ [updated]) ∨
    (∃ before old after, buckets = before ++ old :: after ∧
      todaysBucket today agentId buckets = some old ∧
      saveBucket today agentId buckets updated = before ++ updated :: after) := by
  induction buckets with
  | nil => exact Or.inl ⟨rfl, rfl⟩
  | cons p rest ih =>
    by_cases hp : isTodaysBucket today agentId p = true
    · refine Or.inr ⟨[], p, rest, rfl, ?_, ?_⟩
      · simp [todaysBucket, hp]
      · simp [saveBucket, hp]
    · simp only [Bool.not_eq_true] at hp
      rcases ih with ⟨h1, h2⟩ | ⟨before, old, after, h1, h2, h3⟩
      · refine Or.inl ⟨?_, ?_⟩
        · simpa [todaysBucket, hp] using h1
        · simp [saveBucket, hp, h2]
      · refine Or.inr ⟨p :: before, old, after, by rw [h1]; rfl, ?_, ?_⟩
        · simpa [todaysBucket, hp] using h2
        · simp [saveBucket, hp, h3]

/-- The bucket `recordAgentPerformance` works on: the one found, else a
fresh one. -/
theorem recordAgentPerformance_eq (today : Nat) (buckets : List AgentPerformance)
    (agentId : String) (metrics : Metrics) :
    recordAgentPerformance today buckets agentId metrics =
      saveBucket today agentId buckets
        (applyMetrics ((todaysBucket today agentId buckets).getD (freshBucket today agentId))
          metrics) := by
  unfold recordAgentPerformance todaysBucket freshBucket
  cases buckets.find? (isTodaysBucket today agentId) <;> rfl

/-- After `recordAgentPerformance` the bucket of the day is the previous one
(a fresh one when there was none) with the metrics applied. -/
theorem todaysBucket_record (today : Nat) (buckets : List AgentPerformance) (agentId : String)
    (metrics : Metrics) :
    todaysBucket today agentId (recordAgentPerformance today buckets agentId metrics) =
      some (applyMetrics ((todaysBucket today agentId buckets).getD (freshBucket today agentId))
        metrics) := by
  rw [recordAgentPerformance_eq]
  apply todaysBucket_saveBucket
  rw [isTodaysBucket_applyMetrics]
  cases h : todaysBucket today agentId buckets with
  | none => exact isTodaysBucket_fresh today agentId
  | some p =>
    simp only [Option.getD_some]
    exact List.find?_some h

/-! ## Bucket counters and means -/

/-- The mean after an event that adds one response: the running total of the
response times grows by the sample. -/
theorem applyMetrics_mean (p : AgentPerformance) (m : Metrics) (rt : ℚ)
    (ht : m.totalResponses = some 1) (hrt : m.responseTime = some rt)
    (hn : 0 ≤ p.totalResponses) :
    (applyMetrics p m).totalResponses = p.totalResponses + 1 ∧
    (applyMetrics p m).averageResponseTime * ((p.totalResponses + 1 : Int) : ℚ) =
      p.averageResponseTime * (p.totalResponses : ℚ) + rt ∧
    (applyMetrics p m).averageResponseTime =
      p.averageResponseTime +
        (rt - p.averageResponseTime) / ((applyMetrics p m).totalResponses : ℚ) := by
  obtain ⟨_, _, h3, _, _, _, _, h8⟩ := applyMetrics_fields p m
  rw [ht] at h3
  rw [hrt, ht] at h8
  simp only [Option.getD_some] at h3 h8
  have hpos : (0 : ℚ) < ((p.totalResponses + 1 : Int) : ℚ) := by
    have : (0 : Int) < p.totalResponses + 1 := by omega
    exact_mod_cast this
  have hne := ne_of_gt hpos
  refine ⟨h3, ?_, ?_⟩
  · rw [h8, div_mul_cancel₀ _ hne]
    push_cast; ring
  · rw [h8, h3]
    field_simp
    ring

/-- Events that each add one response keep the count and the running total
of the response times in the bucket of the day. -/
theorem recordEvents_mean (today : Nat) (agentId : String) (events : List Metrics) :
    ∀ (buckets : List AgentPerformance),
      (∀ m ∈ events, m.totalResponses = some 1 ∧ m.responseTime ≠ none) →
      0 ≤ ((todaysBucket today agentId buckets).getD
        (freshBucket today agentId)).totalResponses →
      ((todaysBucket today agentId (recordEvents today agentId buckets events)).getD
          (freshBucket today agentId)).totalResponses =
        ((todaysBucket today agentId buckets).getD (freshBucket today agentId)).totalResponses +
          events.length ∧
      ((todaysBucket today agentId (recordEvents today agentId buckets events)).getD
          (freshBucket today agentId)).averageResponseTime *
        ((((todaysBucket today agentId buckets).getD
          (freshBucket today agentId)).totalResponses + events.length : Int) : ℚ) =
        ((todaysBucket today agentId buckets).getD
            (freshBucket today agentId)).averageResponseTime *
          (((todaysBucket today agentId buckets).getD
            (freshBucket today agentId)).totalResponses : ℚ) +
          (events.map fun m => m.responseTime.getD 0).sum := by
  induction events with
  | nil =>
    intro buckets _ _
    simp [recordEvents]
  | cons m rest ih =>
    intro buckets hev hn
    obtain ⟨ht, hrt⟩ := hev m (List.mem_cons_self _ _)
    obtain ⟨rt, hrt⟩ := Option.ne_none_iff_exists'.mp hrt
    have hrest : ∀ x ∈ rest, x.totalResponses = some 1 ∧ x.responseTime ≠ none :=
      fun x hx => hev x (List.mem_cons_of_mem _ hx)
    obtain ⟨e1, e2, _⟩ := applyMetrics_mean
      ((todaysBucket today agentId buckets).getD (freshBucket today agentId)) m rt ht hrt hn
    have hcur := todaysBucket_record today buckets agentId m
    have hstep : recordEvents today agentId buckets (m :: rest) =
        recordEvents today agentId (recordAgentPerformance today buckets agentId m) rest := rfl
    have := ih (recordAgentPerformance today buckets agentId m) hrest
      (by rw [hcur, Option.getD_some, e1]; omega)
    rw [hcur, Option.getD_some] at this
    obtain ⟨i1, i2⟩ := this
    rw [hstep]
    refine ⟨by rw [i1, e1]; simp only [List.length_cons]; push_cast; ring, ?_⟩
    have hcast : ((((todaysBucket today agentId buckets).getD
          (freshBucket today agentId)).totalResponses + ((m :: rest).length : Int) : Int) : ℚ) =
        (((applyMetrics ((todaysBucket today agentId buckets).getD
          (freshBucket today agentId)) m).totalResponses + (rest.length : Int) : Int) : ℚ) := by
      rw [e1]; simp only [List.length_cons]; push_cast; ring
    rw [hcast, i2, e1]
    simp only [List.map_cons, List.sum_cons, hrt, Option.getD_some]
    rw [e2]
    ring

/-- C22: for events that each add one response, recorded from the day's
first event on, the bucket has as many responses as events and its
`averageResponseTime` is the sum of the response times divided by their
number; each event applies the online update
`newAvg = oldAvg + (sample - oldAvg) / newCount`. -/
theorem average_response_time_is_mean (today : Nat) (agentId : String) (events : List Metrics)
    (hev : ∀ m ∈ events, m.totalResponses = some 1 ∧ m.responseTime ≠ none)
    (hne : events ≠ []) :
    (∃ b, todaysBucket today agentId (recordEvents today agentId [] events) = some b ∧
      b.totalResponses = events.length ∧
      b.averageResponseTime =
        (events.map fun m => m.responseTime.getD 0).sum / (events.length : ℚ)) ∧
    (∀ (p : AgentPerformance) (m : Metrics) (rt : ℚ), m.totalResponses = some 1 →
      m.responseTime = some rt → 0 ≤ p.totalResponses →
      (applyMetrics p m).averageResponseTime =
        p.averageResponseTime +
          (rt - p.averageResponseTime) / ((applyMetrics p m).totalResponses : ℚ)) := by
  refine ⟨?_, fun p m rt ht hrt hn => (applyMetrics_mean p m rt ht hrt hn).2.2⟩
  obtain ⟨h1, h2⟩ := recordEvents_mean today agentId events [] hev (by simp [todaysBucket, freshBucket])
  have hsome : ∃ b, todaysBucket today agentId (recordEvents today agentId [] events) = some b := by
    rw [← List.dropLast_append_getLast hne]
    simp only [recordEvents, List.foldl_append, List.foldl_cons, List.foldl_nil]
    exact ⟨_, todaysBucket_record today _ agentId _⟩
  obtain ⟨b, hb⟩ := hsome
  rw [hb] at h1 h2
  simp only [Option.getD_some, todaysBucket, List.find?_nil, Option.getD_none, freshBucket,
    zero_add, Int.cast_natCast, Int.cast_zero, mul_zero] at h1 h2
  have hpos : (0 : ℚ) < (events.length : ℚ) := by
    have : 0 < events.length := List.length_pos.mpr hne
    exact_mod_cast this
  refine ⟨b, hb, h1, ?_⟩
  rw [eq_div_iff (ne_of_gt hpos), h2]

/-- Witness of `average_response_time_is_mean`: the response times 1, 3, 2
give the means 1, 2, 2. -/
theorem average_response_time_is_mean_witness :
    ((recordEvents 0 "a1" [] [timingMetrics 1]).map fun b => b.averageResponseTime) = [1] ∧
    ((recordEvents 0 "a1" [] [timingMetrics 1, timingMetrics 3]).map
      fun b => b.averageResponseTime) = [2] ∧
    ((recordEvents 0 "a1" [] [timingMetrics 1, timingMetrics 3, timingMetrics 2]).map
      fun b => b.averageResponseTime) = [2] ∧
    ∃ b, todaysBucket 0 "a1"
        (recordEvents 0 "a1" [] [timingMetrics 1, timingMetrics 3, timingMetrics 2]) = some b ∧
      b.totalResponses = ([timingMetrics 1, timingMetrics 3, timingMetrics 2].length : Int) ∧
      b.averageResponseTime =
        ([timingMetrics 1, timingMetrics 3, timingMetrics 2].map
          fun m => m.responseTime.getD 0).sum /
          (([timingMetrics 1, timingMetrics 3, timingMetrics 2].length : Nat) : ℚ) :=
  ⟨by decide!, by decide!, by decide!,
    (average_response_time_is_mean 0 "a1" [timingMetrics 1, timingMetrics 3, timingMetrics 2]
      (by decide) (by decide)).1⟩

/-! ## Events recorded by a request -/

/-- C24 at a `gemini-pro` agent: one request that reaches generation takes
the agent's `responses` from 0 to 2, the update being applied by
`agent.processRequest` and again by the controller; the same request on a
`whatco-small` agent takes it from 0 to 1. -/
theorem geminiPro_counts_response_twice :
    (∃ r, (processAgentRequest sampleEnv (sampleWorld "gemini-pro" 100 0)
      sampleRequest).response = .ok r) ∧
    ((processAgentRequest sampleEnv (sampleWorld "gemini-pro" 100 0)
      sampleRequest).world.agent.map fun a => a.responses) = some 2 ∧
    ((sampleAgent "gemini-pro").processRequest sampleEnv 1 sampleRequest).2.responses = 1 ∧
    ((processAgentRequest sampleEnv (sampleWorld "whatco-small" 100 0)
      sampleRequest).world.agent.map fun a => a.responses) = some 1 := by
  refine ⟨⟨_, rfl⟩, by decide!, by decide!, by decide!⟩

/-- On a Gemini-gated agent a request that reaches generation adds exactly 1
to `responses` and applies one accuracy update. -/
theorem gemini_counts_response_once (env : Env) (w : World) (req : RequestData) (agent : Agent)
    (r : GenResult) (ha : w.agent = some agent) (hg : usesGemini agent = true)
    (hr : (processAgentRequest env w req).response = .ok r) :
    (processAgentRequest env w req).world.agent =
      some { agent with
        lastActive := some env.now
        responses := agent.responses + 1
        accuracy := updateAccuracy agent.accuracy (agent.responses + 1) r.success } := by
  obtain ⟨stats, hstats, hagent, _⟩ := processAgentRequest_ok_world env w req agent r ha hr
  rw [hagent, hstats]
  simp only [hg, if_true, rollingStep]

/-- C25: `recordAgentPerformance` leaves as the bucket of the day the
previous one (all counters 0 when the event creates it) with each supplied
delta added to its own counter, and touches no other bucket; a request whose
generation failed adds 1 to `totalResponses`, 1 to `failedResponses` and 0 to
`successfulResponses`. -/
theorem counters_are_additive (today : Nat) (buckets : List AgentPerformance)
    (agentId : String) (metrics : Metrics) (env : Env) (w : World) (req : RequestData)
    (agent : Agent) (r : GenResult) :
    (∃ b, todaysBucket today agentId (recordAgentPerformance today buckets agentId metrics) =
        some b ∧
      b.totalResponses =
        ((todaysBucket today agentId buckets).getD (freshBucket today agentId)).totalResponses +
          metrics.totalResponses.getD 0 ∧
      b.successfulResponses =
        ((todaysBucket today agentId buckets).getD
          (freshBucket today agentId)).successfulResponses +
          metrics.successfulResponses.getD 0 ∧
      b.failedResponses =
        ((todaysBucket today agentId buckets).getD (freshBucket today agentId)).failedResponses +
          metrics.failedResponses.getD 0 ∧
      b.tokenUsage =
        ((todaysBucket today agentId buckets).getD (freshBucket today agentId)).tokenUsage +
          metrics.tokenUsage.getD 0 ∧
      ((todaysBucket today agentId buckets = none ∧
          recordAgentPerformance today buckets agentId metrics = buckets ++ [b]) ∨
        (∃ before old after, buckets = before ++ old :: after ∧
          todaysBucket today agentId buckets = some old ∧
          recordAgentPerformance today buckets agentId metrics = before ++ b :: after))) ∧
    (freshBucket today agentId).totalResponses = 0 ∧
    (freshBucket today agentId).successfulResponses = 0 ∧
    (freshBucket today agentId).failedResponses = 0 ∧
    (freshBucket today agentId).tokenUsage = 0 ∧
    (w.agent = some agent → (processAgentRequest env w req).response = .ok r →
      r.success = false →
      ∃ b, todaysBucket env.today agent.id (processAgentRequest env w req).world.performance =
          some b ∧
        b.totalResponses =
          ((todaysBucket env.today agent.id w.performance).getD
            (freshBucket env.today agent.id)).totalResponses + 1 ∧
        b.failedResponses =
          ((todaysBucket env.today agent.id w.performance).getD
            (freshBucket env.today agent.id)).failedResponses + 1 ∧
        b.successfulResponses =
          ((todaysBucket env.today agent.id w.performance).getD
            (freshBucket env.today agent.id)).successfulResponses + 0) := by
  refine ⟨?_, rfl, rfl, rfl, rfl, ?_⟩
  · obtain ⟨_, _, h3, h4, h5, h6, _, _⟩ := applyMetrics_fields
      ((todaysBucket today agentId buckets).getD (freshBucket today agentId)) metrics
    refine ⟨_, todaysBucket_record today buckets agentId metrics, h3, h4, h5, h6, ?_⟩
    rw [recordAgentPerformance_eq]
    exact saveBucket_shape today agentId _ buckets
  · intro ha hr hf
    obtain ⟨stats, _, _, hperf⟩ := processAgentRequest_ok_world env w req agent r ha hr
    rw [hperf]
    obtain ⟨_, _, h3, h4, h5, _, _, _⟩ := applyMetrics_fields
      ((todaysBucket env.today agent.id w.performance).getD (freshBucket env.today agent.id))
      { totalResponses := some 1
        successfulResponses := some (if r.success then 1 else 0)
        failedResponses := some (if r.success then 0 else 1)
        responseTime := some env.responseTime
        accuracy := some stats.2
        tokenUsage := some (r.tokenUsage.getD 0) }
    refine ⟨_, todaysBucket_record _ _ _ _, h3, ?_, ?_⟩
    · rw [h5]; simp [hf]
    · rw [h4]; simp [hf]

/-- C27: a success on one day and a failure on the next: the second day's
bucket holds the agent's lifetime accuracy 50, while its own success ratio,
which is what `getAgentPerformance` reports for that day, is 0. -/
theorem bucket_accuracy_differs_from_ratio :
    ((todaysBucket dayMs "a1"
      (processAgentRequest nextDayFailingEnv
        (processAgentRequest sampleEnv (sampleWorld "whatco-small" 100 0) sampleRequest).world
        sampleRequest).world.performance).map
      fun b => (b.accuracy, b.successfulResponses, b.totalResponses)) = some (50, 0, 1) ∧
    reportedAccuracy
      (bucketsInRange
        (processAgentRequest nextDayFailingEnv
          (processAgentRequest sampleEnv (sampleWorld "whatco-small" 100 0) sampleRequest).world
          sampleRequest).world.performance "a1" dayMs (dayMs + 5000)) 50 = 0 ∧
    (50 : ℚ) ≠ 100 * (0 : ℚ) / 1 := by
  refine ⟨by decide!, by decide!, by norm_num⟩

/-- An event recorded by `processAgentRequest` on a bucket of the day with
`totalResponses = successfulResponses + failedResponses` (or on no bucket
yet) leaves a bucket of the day for which this holds again, and no counter
is smaller than before; `tokenUsage` is not smaller either when the result's
token count is not negative. -/
theorem bucket_event_consistent (env : Env) (w : World) (req : RequestData) (agent : Agent)
    (r : GenResult) (ha : w.agent = some agent)
    (hr : (processAgentRequest env w req).response = .ok r)
    (hinv : ∀ old, todaysBucket env.today agent.id w.performance = some old →
      old.totalResponses = old.successfulResponses + old.failedResponses)
    (htok : 0 ≤ r.tokenUsage.getD 0) :
    ∃ b, todaysBucket env.today agent.id (processAgentRequest env w req).world.performance =
        some b ∧
      b.totalResponses = b.successfulResponses + b.failedResponses ∧
      ((todaysBucket env.today agent.id w.performance).getD
        (freshBucket env.today agent.id)).totalResponses ≤ b.totalResponses ∧
      ((todaysBucket env.today agent.id w.performance).getD
        (freshBucket env.today agent.id)).successfulResponses ≤ b.successfulResponses ∧
      ((todaysBucket env.today agent.id w.performance).getD
        (freshBucket env.today agent.id)).failedResponses ≤ b.failedResponses ∧
      ((todaysBucket env.today agent.id w.performance).getD
        (freshBucket env.today agent.id)).tokenUsage ≤ b.tokenUsage ∧
      ((todaysBucket env.today agent.id w.performance = none ∧
          (processAgentRequest env w req).world.performance = w.performance ++ [b]) ∨
        (∃ before old after, w.performance = before ++ old :: after ∧
          todaysBucket env.today agent.id w.performance = some old ∧
          (processAgentRequest env w req).world.performance = before ++ b :: after)) := by
  obtain ⟨stats, _, _, hperf⟩ := processAgentRequest_ok_world env w req agent r ha hr
  rw [hperf]
  obtain ⟨_, _, h3, h4, h5, h6, _, _⟩ := applyMetrics_fields
    ((todaysBucket env.today agent.id w.performance).getD (freshBucket env.today agent.id))
    { totalResponses := some 1
      successfulResponses := some (if r.success then 1 else 0)
      failedResponses := some (if r.success then 0 else 1)
      responseTime := some env.responseTime
      accuracy := some stats.2
      tokenUsage := some (r.tokenUsage.getD 0) }
  have hold : ((todaysBucket env.today agent.id w.performance).getD
        (freshBucket env.today agent.id)).totalResponses =
      ((todaysBucket env.today agent.id w.performance).getD
        (freshBucket env.today agent.id)).successfulResponses +
      ((todaysBucket env.today agent.id w.performance).getD
        (freshBucket env.today agent.id)).failedResponses := by
    cases h : todaysBucket env.today agent.id w.performance with
    | none => rfl
    | some old => exact hinv old h
  simp only [Option.getD_some] at h3 h4 h5 h6
  refine ⟨_, todaysBucket_record _ _ _ _, ?_, ?_, ?_, ?_, ?_, ?_⟩
  · rw [h3, h4, h5, hold]; cases r.success <;> simp <;> ring
  · rw [h3]; omega
  · rw [h4]; cases r.success <;> simp
  · rw [h5]; cases r.success <;> simp
  · rw [h6]; omega
  · rw [recordAgentPerformance_eq]
    exact saveBucket_shape _ _ _ _

/-- C30: for an agent with `responses >= 0` and an accuracy between 0 and
100, the accuracy a request writes on the agent is again between 0 and 100,
the counter is still not negative, and the bucket of the day carries that
accuracy. -/
theorem accuracy_stays_percentage (env : Env) (w : World) (req : RequestData) (agent : Agent)
    (r : GenResult) (ha : w.agent = some agent)
    (hr : (processAgentRequest env w req).response = .ok r)
    (hn : 0 ≤ agent.responses) (h0 : 0 ≤ agent.accuracy) (h100 : agent.accuracy ≤ 100) :
    ∃ written b, (processAgentRequest env w req).world.agent = some written ∧
      0 ≤ written.responses ∧ 0 ≤ written.accuracy ∧ written.accuracy ≤ 100 ∧
      todaysBucket env.today agent.id (processAgentRequest env w req).world.performance =
        some b ∧
      b.accuracy = written.accuracy := by
  obtain ⟨stats, hstats, hagent, hperf⟩ := processAgentRequest_ok_world env w req agent r ha hr
  have hb : 0 ≤ stats.1 ∧ 0 ≤ stats.2 ∧ stats.2 ≤ 100 := by
    obtain ⟨b1, b2, b3⟩ := rollingStep_bounds agent.responses agent.accuracy r.success hn h0 h100
    by_cases hg : usesGemini agent = true
    · rw [hstats]; simp only [hg, if_true]; exact ⟨b1, b2, b3⟩
    · rw [hstats]; simp only [hg, Bool.false_eq_true, if_false]
      exact rollingStep_bounds _ _ r.success b1 b2 b3
  obtain ⟨_, _, _, _, _, _, h7, _⟩ := applyMetrics_fields
    ((todaysBucket env.today agent.id w.performance).getD (freshBucket env.today agent.id))
    { totalResponses := some 1
      successfulResponses := some (if r.success then 1 else 0)
      failedResponses := some (if r.success then 0 else 1)
      responseTime := some env.responseTime
      accuracy := some stats.2
      tokenUsage := some (r.tokenUsage.getD 0) }
  have hbucket := todaysBucket_record env.today w.performance agent.id
    { totalResponses := some 1
      successfulResponses := some (if r.success then 1 else 0)
      failedResponses := some (if r.success then 0 else 1)
      responseTime := some env.responseTime
      accuracy := some stats.2
      tokenUsage := some (r.tokenUsage.getD 0) }
  rw [← hperf] at hbucket
  exact ⟨_, _, hagent, hb.1, hb.2.1, hb.2.2, hbucket, by rw [h7]; rfl⟩

/-- Witness of `accuracy_stays_percentage`: a failed generation on an agent
with no responses yet writes the accuracy 0. -/
theorem accuracy_stays_percentage_witness :
    ∃ written b,
      (processAgentRequest failingEnv (sampleWorld "whatco-small" 100 0)
        sampleRequest).world.agent = some written ∧
      0 ≤ written.responses ∧ 0 ≤ written.accuracy ∧ written.accuracy ≤ 100 ∧
      todaysBucket 0 "a1"
        (processAgentRequest failingEnv (sampleWorld "whatco-small" 100 0)
          sampleRequest).world.performance = some b ∧
      b.accuracy = written.accuracy :=
  accuracy_stays_percentage failingEnv (sampleWorld "whatco-small" 100 0) sampleRequest
    (sampleAgent "whatco-small") _ rfl rfl (by decide) (by decide!) (by decide!)

/-- The simulated generation reports at least 50 tokens when its draw is not
negative. -/
theorem Agent.processRequest_tokens (agent : Agent) (env : Env) (elapsed : ℚ)
    (requestData : RequestData) (hrand : 0 ≤ env.randomTokens) :
    0 ≤ (agent.processRequest env elapsed requestData).1.tokenUsage.getD 0 := by
  have hfloor : (0 : Int) ≤ Int.floor (env.randomTokens * 500) :=
    Int.floor_nonneg.mpr (mul_nonneg hrand (by norm_num))
  have h1 : (0 : Int) ≤ Int.floor (env.randomTokens * 500) + 100 := by omega
  have h2 : (0 : Int) ≤ (Int.floor (env.randomTokens * 500) + 100) / 2 :=
    Int.ediv_nonneg h1 (by norm_num)
  unfold Agent.processRequest
  dsimp only
  by_cases hl : agent.aiModel = "whatco-large"
  · by_cases h : (5 : ℚ) / 100 < env.randomSuccess
    · simpa [hl, h] using h1
    · simpa [hl, h] using h2
  · by_cases h : (15 : ℚ) / 100 < env.randomSuccess
    · simpa [hl, h] using h1
    · simpa [hl, h] using h2

/-- A result's token count is not negative when the service reports
non-negative counts and the simulated draw is not negative. -/
theorem result_tokens_nonneg (env : Env) (w : World) (req : RequestData) (r : GenResult)
    (hgem : ∀ a rd, 0 ≤ (env.gemini a rd).tokenUsage.getD 0) (hrand : 0 ≤ env.randomTokens)
    (hr : (processAgentRequest env w req).response = .ok r) : 0 ≤ r.tokenUsage.getD 0 := by
  revert hr
  unfold processAgentRequest
  split
  · intro hr; cases hr
  · split
    · intro hr; cases hr
    · split
      · intro hr; cases hr
      · split
        · intro hr; cases hr
        · split
          · dsimp only
            split
            · intro hr; cases hr
            · intro hr
              simp only [finishRequest, Response.ok.injEq] at hr
              rw [← hr]
              exact hgem _ _
          · intro hr
            simp only [finishRequest, Response.ok.injEq] at hr
            rw [← hr]
            exact Agent.processRequest_tokens _ _ _ _ hrand

/-- One request keeps the agent's id, keeps the bucket of the day
consistent, and lowers none of its counters. -/
theorem request_keeps_bucket_consistent (today : Nat) (agentId : String) (e : Env × RequestData)
    (w : World) (htoday : e.1.today = today)
    (htok : ∀ r, (processAgentRequest e.1 w e.2).response = .ok r → 0 ≤ r.tokenUsage.getD 0)
    (hagent : ∃ agent, w.agent = some agent ∧ agent.id = agentId)
    (hinv : (currentBucket today agentId w).totalResponses =
      (currentBucket today agentId w).successfulResponses +
        (currentBucket today agentId w).failedResponses) :
    (∃ agent, (processAgentRequest e.1 w e.2).world.agent = some agent ∧ agent.id = agentId) ∧
    (currentBucket today agentId (processAgentRequest e.1 w e.2).world).totalResponses =
      (currentBucket today agentId (processAgentRequest e.1 w e.2).world).successfulResponses +
        (currentBucket today agentId (processAgentRequest e.1 w e.2).world).failedResponses ∧
    (currentBucket today agentId w).totalResponses ≤
      (currentBucket today agentId (processAgentRequest e.1 w e.2).world).totalResponses ∧
    (currentBucket today agentId w).successfulResponses ≤
      (currentBucket today agentId (processAgentRequest e.1 w e.2).world).successfulResponses ∧
    (currentBucket today agentId w).failedResponses ≤
      (currentBucket today agentId (processAgentRequest e.1 w e.2).world).failedResponses ∧
    (currentBucket today agentId w).tokenUsage ≤
      (currentBucket today agentId (processAgentRequest e.1 w e.2).world).tokenUsage := by
  obtain ⟨agent, ha, hid⟩ := hagent
  by_cases hok : ∃ r, (processAgentRequest e.1 w e.2).response = .ok r
  · obtain ⟨r, hr⟩ := hok
    obtain ⟨stats, _, hwritten, _⟩ := processAgentRequest_ok_world e.1 w e.2 agent r ha hr
    have hinv' : ∀ old, todaysBucket e.1.today agent.id w.performance = some old →
        old.totalResponses = old.successfulResponses + old.failedResponses := by
      intro old hold
      rw [htoday, hid] at hold
      simpa [currentBucket, hold] using hinv
    obtain ⟨b, hb, h1, h2, h3, h4, h5, _⟩ :=
      bucket_event_consistent e.1 w e.2 agent r ha hr hinv' (htok r hr)
    rw [htoday, hid] at hb h2 h3 h4 h5
    refine ⟨⟨_, hwritten, hid⟩, ?_, ?_, ?_, ?_, ?_⟩ <;>
      simp only [currentBucket, hb, Option.getD_some] <;> assumption
  · have hno : ∀ r, (processAgentRequest e.1 w e.2).response ≠ .ok r :=
      fun r hr => hok ⟨r, hr⟩
    obtain ⟨h1, h2, _⟩ := processAgentRequest_rejected e.1 w e.2 hno
    refine ⟨⟨agent, by rw [h1, ha], hid⟩, ?_, ?_, ?_, ?_, ?_⟩ <;>
      simp only [currentBucket, h2] <;> first | exact hinv | exact le_refl _

/-- C29: for requests of one day on one agent, handled one after another from
a state whose bucket of the day (if any) has `totalResponses =
successfulResponses + failedResponses`, the bucket of the day has this
property after every request, and `totalResponses`, `successfulResponses`,
`failedResponses` and (the service reporting non-negative token counts and
the simulated draw being non-negative) `tokenUsage` are never smaller than
before. -/
theorem bucket_counters_consistent (today : Nat) (agentId : String)
    (events : List (Env × RequestData)) :
    ∀ (w : World), (∀ e ∈ events, e.1.today = today) →
      (∀ e ∈ events, (∀ a rd, 0 ≤ (e.1.gemini a rd).tokenUsage.getD 0) ∧
        0 ≤ e.1.randomTokens) →
      (∃ agent, w.agent = some agent ∧ agent.id = agentId) →
      (currentBucket today agentId w).totalResponses =
        (currentBucket today agentId w).successfulResponses +
          (currentBucket today agentId w).failedResponses →
      (currentBucket today agentId (runRequests w events)).totalResponses =
        (currentBucket today agentId (runRequests w events)).successfulResponses +
          (currentBucket today agentId (runRequests w events)).failedResponses ∧
      (currentBucket today agentId w).totalResponses ≤
        (currentBucket today agentId (runRequests w events)).totalResponses ∧
      (currentBucket today agentId w).successfulResponses ≤
        (currentBucket today agentId (runRequests w events)).successfulResponses ∧
      (currentBucket today agentId w).failedResponses ≤
        (currentBucket today agentId (runRequests w events)).failedResponses ∧
      (currentBucket today agentId w).tokenUsage ≤
        (currentBucket today agentId (runRequests w events)).tokenUsage := by
  induction events with
  | nil =>
    intro w _ _ _ hinv
    exact ⟨hinv, le_refl _, le_refl _, le_refl _, le_refl _⟩
  | cons e rest ih =>
    intro w htoday htok hagent hinv
    obtain ⟨s1, s2, s3, s4, s5, s6⟩ := request_keeps_bucket_consistent today agentId e w
      (htoday e (List.mem_cons_self _ _))
      (fun r hr => result_tokens_nonneg e.1 w e.2 r (htok e (List.mem_cons_self _ _)).1
        (htok e (List.mem_cons_self _ _)).2 hr) hagent hinv
    obtain ⟨i1, i2, i3, i4, i5⟩ := ih (processAgentRequest e.1 w e.2).world
      (fun x hx => htoday x (List.mem_cons_of_mem _ hx))
      (fun x hx => htok x (List.mem_cons_of_mem _ hx)) s1 s2
    have hrun : runRequests w (e :: rest) =
        runRequests (processAgentRequest e.1 w e.2).world rest := rfl
    rw [hrun]
    exact ⟨i1, le_trans s3 i2, le_trans s4 i3, le_trans s5 i4, le_trans s6 i5⟩

/-- Witness of `bucket_counters_consistent`: a successful and then a failed
request on a `whatco-small` agent, on a day without a bucket yet. -/
theorem bucket_counters_consistent_witness :
    (currentBucket 0 "a1" (runRequests (sampleWorld "whatco-small" 100 0)
      [(sampleEnv, sampleRequest), (failingEnv, sampleRequest)])).totalResponses =
    (currentBucket 0 "a1" (runRequests (sampleWorld "whatco-small" 100 0)
      [(sampleEnv, sampleRequest), (failingEnv, sampleRequest)])).successfulResponses +
    (currentBucket 0 "a1" (runRequests (sampleWorld "whatco-small" 100 0)
      [(sampleEnv, sampleRequest), (failingEnv, sampleRequest)])).failedResponses :=
  (bucket_counters_consistent 0 "a1" [(sampleEnv, sampleRequest), (failingEnv, sampleRequest)]
    (sampleWorld "whatco-small" 100 0)
    (by intro e he
        simp only [List.mem_cons, List.mem_singleton, List.not_mem_nil, or_false] at he
        rcases he with rfl | rfl <;> rfl)
    (by intro e he
        simp only [List.mem_cons, List.mem_singleton, List.not_mem_nil, or_false] at he
        rcases he with rfl | rfl
        · exact ⟨fun _ _ => (show (0 : Int) ≤ 10 by decide), le_refl _⟩
        · exact ⟨fun _ _ => le_refl _, le_refl _⟩)
    ⟨sampleAgent "whatco-small", rfl, rfl⟩ rfl).1

end Watix
